import Mathlib

/-!
Shallow embedding of the fire-rescue simulation from `src/agentes/bombers.py`
(with one definition, the A* path search, taken from
`src/agentes/bombers_strat2.py`).  Python dictionaries are modelled as
association lists, the numpy cell grid as a total function from integer
coordinates to cells, and the shared seeded random stream as an explicit list
of natural-number draws.  Logging, JSON export and visualisation calls of the
source are pure output and are omitted; every state-changing line is kept.
-/

namespace Bombers

/-- A board cell as built by `ScenarioParser.build_grid_state`: wall bits for
the four directions (north, east, south, west; 1 = wall present), fire and
smoke flags, and an optional point of interest ("v" victim, "f" false
alarm). -/
structure Cell where
  walls : List Nat
  fire : Bool
  smoke : Bool
  poi : Option String
  deriving Repr, DecidableEq

/-- A firefighter agent (`FirefighterAgent.__init__`): mesa position is
`(x, y)`, action points, carrying flag, the entry assigned for the boarding
turn and the action-point cap. -/
structure AgentState where
  uid : Nat
  pos : Int × Int
  ap : Nat
  carrying : Bool
  assignedEntry : Option (Int × Int)
  maxAp : Nat
  deriving Repr, DecidableEq

/-- Key of a wall or door segment: `(row, col, direction)` as produced by
`DirectionHelper.get_wall_key`. -/
abbrev WallKey := Int × Int × Nat

/-- Lookup in a Python-dict modelled as an association list. -/
def dictGet {κ β : Type} [DecidableEq κ] (l : List (κ × β)) (k : κ) : Option β :=
  (l.find? fun p => decide (p.1 = k)).map Prod.snd

/-- Dictionary assignment `l[k] = v` (overwrites any previous binding). -/
def dictSet {κ β : Type} [DecidableEq κ] (l : List (κ × β)) (k : κ) (v : β) :
    List (κ × β) :=
  (k, v) :: l.filter fun p => decide (p.1 ≠ k)

/-- Dictionary deletion `del l[k]`. -/
def dictDel {κ β : Type} [DecidableEq κ] (l : List (κ × β)) (k : κ) :
    List (κ × β) :=
  l.filter fun p => decide (p.1 ≠ k)

/-- Membership test `k in l` for a dict modelled as an association list. -/
def dictHas {κ β : Type} [DecidableEq κ] (l : List (κ × β)) (k : κ) : Bool :=
  (dictGet l k).isSome

/-- The whole mutable state of `FireRescueModel`.  `grid` is indexed
`(y, x)` like `model.grid_state[y, x]`; `rows`/`cols` are the shape of that
array (8 and 10 for the shipped scenario). -/
structure ModelState where
  rows : Nat
  cols : Nat
  grid : Int × Int → Cell
  doors : List ((Int × Int) × (Int × Int))
  doorStates : List (WallKey × String)
  wallDamage : List (WallKey × Nat)
  fires : List (Int × Int)
  pois : List (Int × Int × String)
  entries : List (Int × Int)
  agents : List AgentState
  victimsLost : Nat
  victimsRescued : Nat
  damageCounters : Nat
  simulationOver : Bool
  mazoPois : List String
  stepCount : Nat
  stage : Nat

/-- `DirectionHelper.DIRECTIONS`: `(dx, dy)` deltas for north, east, south,
west. -/
def DIRECTIONS : List (Int × Int) := [(0, -1), (1, 0), (0, 1), (-1, 0)]

/-- `DirectionHelper.get_adjacent_position`. -/
def getAdjacentPosition (x y : Int) (d : Nat) : Int × Int :=
  let dd := DIRECTIONS.getD d (0, 0)
  (x + dd.1, y + dd.2)

/-- `DirectionHelper.get_opposite_direction`. -/
def oppositeDirection (d : Nat) : Nat := (d + 2) % 4

/-- `DirectionHelper.is_perimeter` (width = `cols`, height = `rows`). -/
def isPerimeter (s : ModelState) (x y : Int) : Bool :=
  decide (x = 0) || decide (x = (s.cols : Int) - 1) ||
    decide (y = 0) || decide (y = (s.rows : Int) - 1)

/-- The bounds check `0 <= ny < height and 0 <= nx < width` used throughout
the source before indexing the grid. -/
def inBoundsYX (s : ModelState) (y x : Int) : Bool :=
  decide (0 ≤ y ∧ y < (s.rows : Int) ∧ 0 ≤ x ∧ x < (s.cols : Int))

/-- `DirectionHelper.has_wall`. -/
def hasWall (s : ModelState) (y x : Int) (d : Nat) : Bool :=
  (s.grid (y, x)).walls.getD d 0 == 1

/-- `DirectionHelper.is_wall_destroyed`: the key is present in `wall_damage`
with at least 2 damage points. -/
def isWallDestroyed (s : ModelState) (y x : Int) (d : Nat) : Bool :=
  match dictGet s.wallDamage (y, x, d) with
  | some n => decide (2 ≤ n)
  | none => false

/-- `DirectionHelper.can_pass_wall`. -/
def canPassWall (s : ModelState) (y x : Int) (d : Nat) : Bool :=
  !hasWall s y x d || isWallDestroyed s y x d

/-- `ScenarioParser.compute_door_positions`: one canonical key per door pair
(the west cell with direction east for horizontal pairs, the north cell with
direction south for vertical ones). -/
def computeDoorPositions (doors : List ((Int × Int) × (Int × Int))) :
    List WallKey :=
  doors.map fun pr =>
    if pr.1.1 = pr.2.1 then
      (if pr.1.2 < pr.2.2 then (pr.1.1, pr.1.2, 1) else (pr.1.1, pr.2.2, 1))
    else
      (if pr.1.1 < pr.2.1 then (pr.1.1, pr.1.2, 2) else (pr.2.1, pr.2.2, 2))

/-- `DirectionHelper.is_door`. -/
def isDoor (s : ModelState) (y x : Int) (d : Nat) : Bool :=
  decide ((y, x, d) ∈ computeDoorPositions s.doors)

/-- `DirectionHelper.get_door_state`: `none` when the key is not a computed
door position, otherwise the stored state, or "destroyed" when the key was
deleted from the live table. -/
def getDoorState (s : ModelState) (y x : Int) (d : Nat) : Option String :=
  if (y, x, d) ∈ computeDoorPositions s.doors then
    match dictGet s.doorStates (y, x, d) with
    | some st => some st
    | none => some "destroyed"
  else none

/-- `DirectionHelper.is_entry`: `(x, y)` matches some entry `(row, col)`
flipped to mesa coordinates. -/
def isEntry (s : ModelState) (x y : Int) : Bool :=
  decide ((x, y) ∈ s.entries.map fun e => (e.2, e.1))

/-- Update one cell of the grid in place. -/
def updCell (g : Int × Int → Cell) (p : Int × Int) (f : Cell → Cell) :
    Int × Int → Cell :=
  Function.update g p (f (g p))

/-- `DirectionHelper.damage_wall`: add one damage point (initialising at 1),
bump the cumulative damage counter, and on reaching 2 clear the wall bit on
the origin cell and, when the neighbour is on the board, on the neighbour's
opposite direction, copying the damage value to the mirrored key.  Returns
the updated state and whether the wall was destroyed.  The JSON change
record appended by the source is output-only and omitted. -/
def damage_wall (s : ModelState) (y x : Int) (d : Nat) : ModelState × Bool :=
  let key : WallKey := (y, x, d)
  let newDmg : Nat :=
    match dictGet s.wallDamage key with
    | none => 1
    | some n => n + 1
  let s1 := { s with wallDamage := dictSet s.wallDamage key newDmg,
                     damageCounters := s.damageCounters + 1 }
  let a := getAdjacentPosition x y d
  if 2 ≤ newDmg then
    let s2 := { s1 with
      grid := updCell s1.grid (y, x) fun c => { c with walls := c.walls.set d 0 } }
    if inBoundsYX s a.2 a.1 then
      let od := oppositeDirection d
      let s3 := { s2 with
        grid := updCell s2.grid (a.2, a.1) fun c => { c with walls := c.walls.set od 0 },
        wallDamage := dictSet s2.wallDamage (a.2, a.1, od) newDmg }
      (s3, true)
    else (s2, true)
  else (s1, false)

/-- Remove the first point of interest whose `(row, col)` matches, exactly
as the source's `for i, poi in enumerate(...): ... pop(i); break` loops do
(the type field is not compared). -/
def removePoiAt : List (Int × Int × String) → Int → Int → List (Int × Int × String)
  | [], _, _ => []
  | p :: t, y, x => if p.1 = y ∧ p.2.1 = x then t else p :: removePoiAt t y x

/-- `if (y, x) not in model.scenario["fires"]: ... .append((y, x))`. -/
def appendFire (l : List (Int × Int)) (p : Int × Int) : List (Int × Int) :=
  if p ∈ l then l else l ++ [p]

/-- Outcome of one iteration of an explosion or shockwave ray loop: either
the loop ends with the given state, or the ray continues from `(x, y)`. -/
inductive RayStep where
  | halt (s : ModelState)
  | cont (s : ModelState) (x y : Int)

/-- The state carried by a `RayStep`. -/
def RayStep.state : RayStep → ModelState
  | .halt s => s
  | .cont s _ _ => s

/-- The door/wall block of one `GameMechanics.shockwave` iteration, acting on
the segment between the previous cell `(py, px)` (the source's
`(y - dy, x - dx)`) and the cell just entered.  Returns the updated state and
whether the ray stopped at a damaged-but-not-destroyed wall. -/
def shockwaveObstacles (s : ModelState) (px py : Int) (dir : Nat) :
    ModelState × Bool :=
  let doorKey : WallKey := (py, px, dir)
  if doorKey ∈ computeDoorPositions s.doors then
    match dictGet s.doorStates doorKey with
    | some st =>
      if st = "cerrada" then
        ({ s with doorStates := dictDel s.doorStates doorKey }, false)
      else (s, false)
    | none => (s, false)
  else
    if hasWall s py px dir then
      if isWallDestroyed s py px dir then (s, false)
      else
        let s1 := (damage_wall s py px dir).1
        let damage :=
          match dictGet s1.wallDamage (py, px, dir) with
          | some n => n
          | none => 1
        if damage < 2 then (s1, true) else (s1, false)
    else (s, false)

/-- The tail of one `GameMechanics.shockwave` iteration after the door/wall
block: stop at the perimeter, then process the entered cell (victim loss;
pass through fire; convert smoke to fire and stop; ignite an empty cell and
stop). -/
def shockwaveRest (s : ModelState) (x y : Int) : RayStep :=
  if isPerimeter s x y then .halt s
  else
    let s1 :=
      if (s.grid (y, x)).poi = some "v" then
        { s with grid := updCell s.grid (y, x) fun c => { c with poi := none },
                 victimsLost := s.victimsLost + 1,
                 pois := removePoiAt s.pois y x }
      else s
    let c := s1.grid (y, x)
    if c.fire then .cont s1 x y
    else if c.smoke then
      .halt { s1 with
        grid := updCell s1.grid (y, x) fun c => { c with smoke := false, fire := true },
        fires := appendFire s1.fires (y, x) }
    else
      .halt { s1 with
        grid := updCell s1.grid (y, x) fun c => { c with fire := true },
        fires := appendFire s1.fires (y, x) }

/-- One iteration of the `GameMechanics.shockwave` loop, starting from the
previous position `(px, py)`: advance one cell, stop when off the board,
run the door/wall block, then `shockwaveRest`. -/
def shockwaveStep (s : ModelState) (px py : Int) (dir : Nat) : RayStep :=
  let dd := DIRECTIONS.getD dir (0, 0)
  let x := px + dd.1
  let y := py + dd.2
  if !inBoundsYX s y x then .halt s
  else
    let ob := shockwaveObstacles s px py dir
    if ob.2 then .halt ob.1
    else shockwaveRest ob.1 x y

/-- Fuel-bounded iteration of `shockwaveStep`.  Each continuing iteration
moves one cell further in a fixed direction inside the board, so
`rows + cols + 1` fuel is always enough. -/
def shockwaveLoop : Nat → ModelState → Int → Int → Nat → ModelState
  | 0, s, _, _, _ => s
  | fuel + 1, s, px, py, dir =>
    match shockwaveStep s px py dir with
    | .halt s1 => s1
    | .cont s1 x y => shockwaveLoop fuel s1 x y dir

/-- `GameMechanics.shockwave`. -/
def shockwave (s : ModelState) (row col : Int) (dir : Nat) : ModelState :=
  shockwaveLoop (s.rows + s.cols + 1) s col row dir

/-- Cell processing of one `GameMechanics.propagate_explosion` iteration, on
the cell `(y, x)` the ray has just entered: victim loss, then smoke becomes
fire, an empty cell ignites, and a burning cell triggers a shockwave after
which the explosion ray stops. -/
def explosionEnter (s : ModelState) (x y : Int) (dir : Nat) : RayStep :=
  let s1 :=
    if (s.grid (y, x)).poi = some "v" then
      { s with grid := updCell s.grid (y, x) fun c => { c with poi := none },
               victimsLost := s.victimsLost + 1,
               pois := removePoiAt s.pois y x }
    else s
  let c := s1.grid (y, x)
  if c.smoke then
    .cont { s1 with
      grid := updCell s1.grid (y, x) fun c => { c with smoke := false, fire := true },
      fires := appendFire s1.fires (y, x) } x y
  else if !c.fire then
    .cont { s1 with
      grid := updCell s1.grid (y, x) fun c => { c with fire := true },
      fires := appendFire s1.fires (y, x) } x y
  else
    .halt (shockwave s1 y x dir)

/-- One iteration of the `GameMechanics.propagate_explosion` loop from
`(x, y)`: stop off-board or at the perimeter; destroy a door on the crossed
segment; an intact wall absorbs one damage point and stops the ray unless
that hit destroys it; otherwise the ray enters the next cell. -/
def explosionStep (s : ModelState) (x y : Int) (dir : Nat) : RayStep :=
  let dd := DIRECTIONS.getD dir (0, 0)
  let nx := x + dd.1
  let ny := y + dd.2
  if !inBoundsYX s ny nx then .halt s
  else if isPerimeter s nx ny then .halt s
  else
    let s1 :=
      if (y, x, dir) ∈ computeDoorPositions s.doors then
        if dictHas s.doorStates (y, x, dir) then
          { s with doorStates := dictDel s.doorStates (y, x, dir) }
        else s
      else s
    if hasWall s1 y x dir && !isWallDestroyed s1 y x dir then
      let dw := damage_wall s1 y x dir
      if !dw.2 then .halt dw.1
      else explosionEnter dw.1 nx ny dir
    else explosionEnter s1 nx ny dir

/-- Fuel-bounded iteration of `explosionStep`. -/
def explosionLoop : Nat → ModelState → Int → Int → Nat → ModelState
  | 0, s, _, _, _ => s
  | fuel + 1, s, x, y, dir =>
    match explosionStep s x y dir with
    | .halt s1 => s1
    | .cont s1 x1 y1 => explosionLoop fuel s1 x1 y1 dir

/-- The door-destruction preamble of `propagate_explosion`, run once (the
source guards it with `direction == NORTH`): every door key at the origin
cell that is still in the live table is deleted. -/
def destroyAdjacentDoors (s : ModelState) (row col : Int) : ModelState :=
  (List.range 4).foldl
    (fun acc dc =>
      if (row, col, (dc : Nat)) ∈ computeDoorPositions acc.doors then
        if dictHas acc.doorStates (row, col, dc) then
          { acc with doorStates := dictDel acc.doorStates (row, col, dc) }
        else acc
      else acc)
    s

/-- `GameMechanics.propagate_explosion`. -/
def propagate_explosion (s : ModelState) (row col : Int) (dir : Nat) :
    ModelState :=
  let s0 := if dir = 0 then destroyAdjacentDoors s row col else s
  explosionLoop (s.rows + s.cols + 1) s0 col row dir

/-- The shared random stream: an explicit list of natural-number draws
standing in for the seeded Mersenne Twister behind `model.random`. -/
abbrev Rng := List Nat

/-- Take one draw from the stream (0 when exhausted). -/
def draw : Rng → Nat × Rng
  | [] => (0, [])
  | n :: t => (n, t)

/-- Model of `random.randint(lo, hi)` (both bounds inclusive) over the draw
stream. -/
def randint (lo hi : Int) (r : Rng) : Int × Rng :=
  let dn := draw r
  (lo + ((dn.1 % (hi - lo + 1).toNat : Nat) : Int), dn.2)

/-- Exchange the elements at positions `i` and `j` (no change when either
index is out of range, which the shuffle below never produces). -/
def listSwap {α : Type} (l : List α) (i j : Nat) : List α :=
  match l.get? i, l.get? j with
  | some a, some b => (l.set i b).set j a
  | _, _ => l

/-- The Fisher-Yates loop of `random.shuffle`, with each `_randbelow(i + 1)`
taken from the draw stream; `i` counts down from `len - 1` to `1`. -/
def shuffleGo {α : Type} : Nat → List α → Rng → List α × Rng
  | 0, a, r => (a, r)
  | i + 1, a, r =>
    let dn := draw r
    let j := dn.1 % (i + 2)
    shuffleGo i (listSwap a (i + 1) j) dn.2

/-- Model of `random.shuffle` on a list. -/
def shuffleList {α : Type} (l : List α) (r : Rng) : List α × Rng :=
  shuffleGo (l.length - 1) l r

/-- Model of `random.choice`: pick the element at a drawn index. -/
def randChoice {α : Type} (l : List α) (dflt : α) (r : Rng) : α × Rng :=
  let dn := draw r
  (l.getD (dn.1 % l.length) dflt, dn.2)

/-- The ignition part of `GameMechanics.advance_fire`, at the drawn interior
cell `(rr, rc)`: an empty cell gains smoke; a smoke cell converts to fire
(losing any victim there); a fire cell explodes in all four directions. -/
def igniteAt (s : ModelState) (rr rc : Int) : ModelState :=
  let cell := s.grid (rr, rc)
  if !cell.fire && !cell.smoke then
    { s with grid := updCell s.grid (rr, rc) fun c => { c with smoke := true } }
  else if !cell.fire && cell.smoke then
    let s1 := { s with
      grid := updCell s.grid (rr, rc) fun c => { c with fire := true, smoke := false },
      fires := appendFire s.fires (rr, rc) }
    if (s1.grid (rr, rc)).poi = some "v" then
      { s1 with grid := updCell s1.grid (rr, rc) fun c => { c with poi := none },
                victimsLost := s1.victimsLost + 1,
                pois := removePoiAt s1.pois rr rc }
    else s1
  else (List.range 4).foldl (fun acc d => propagate_explosion acc rr rc d) s

/-- The detection scan of the flashover pass of `advance_fire`: for every
burning cell and every passable direction whose in-bounds, non-perimeter
neighbour is not on fire, record the neighbour together with whether it held
smoke (`true` = it becomes fire, `false` = it gains smoke), in the source's
scan order. -/
def flashCandidates (s : ModelState) : List ((Int × Int) × Bool) :=
  (List.range s.rows).flatMap fun y =>
    (List.range s.cols).flatMap fun x =>
      if (s.grid ((y : Int), (x : Int))).fire then
        (List.range 4).filterMap fun d =>
          if canPassWall s y x d then
            let a := getAdjacentPosition x y d
            if inBoundsYX s a.2 a.1 && !isPerimeter s a.1 a.2 &&
                !(s.grid (a.2, a.1)).fire then
              some ((a.2, a.1), (s.grid (a.2, a.1)).smoke)
            else none
          else none
      else []

/-- The cells the flashover pass will set on fire (`new_fires`). -/
def newFires (s : ModelState) : List (Int × Int) :=
  (flashCandidates s).filterMap fun p => if p.2 then some p.1 else none

/-- The cells the flashover pass will cover with smoke (`new_smokes`). -/
def newSmokes (s : ModelState) : List (Int × Int) :=
  (flashCandidates s).filterMap fun p => if p.2 then none else some p.1

/-- Apply one `new_fires` entry: set fire, clear smoke, register the fire
and lose any victim on the cell. -/
def applyNewFire (s : ModelState) (p : Int × Int) : ModelState :=
  let s1 := { s with
    grid := updCell s.grid p fun c => { c with fire := true, smoke := false },
    fires := appendFire s.fires p }
  if (s1.grid p).poi = some "v" then
    { s1 with grid := updCell s1.grid p fun c => { c with poi := none },
              victimsLost := s1.victimsLost + 1,
              pois := removePoiAt s1.pois p.1 p.2 }
  else s1

/-- `for y, x in new_fires: ...` of the flashover pass. -/
def applyNewFires (s : ModelState) (l : List (Int × Int)) : ModelState :=
  l.foldl applyNewFire s

/-- Apply one `new_smokes` entry: `if (y, x) not in new_fires` put smoke. -/
def applyNewSmoke (nf : List (Int × Int)) (s : ModelState) (p : Int × Int) :
    ModelState :=
  if p ∈ nf then s
  else { s with grid := updCell s.grid p fun c => { c with smoke := true } }

/-- `for y, x in new_smokes: ...` of the flashover pass. -/
def applyNewSmokes (s : ModelState) (nf l : List (Int × Int)) : ModelState :=
  l.foldl (applyNewSmoke nf) s

/-- The whole flashover pass of `advance_fire`: detect from the current
grid, then apply the new fires followed by the new smokes. -/
def flashover (s : ModelState) : ModelState :=
  applyNewSmokes (applyNewFires s (newFires s)) (newFires s) (newSmokes s)

/-- `GameMechanics.advance_fire`: draw the ignition cell, run the ignition
case, then the flashover pass. -/
def advance_fire (s : ModelState) (r : Rng) : ModelState × Rng :=
  let a := randint 1 ((s.rows : Int) - 2) r
  let b := randint 1 ((s.cols : Int) - 2) a.2
  (flashover (igniteAt s a.1 b.1), b.2)

/-- `FirefighterAgent.extinguish_fire`: extinguish fire (2 AP), convert fire
to smoke (1 AP) or remove smoke (1 AP) at the given cell, for the agent at
index `ai`.  Returns the updated state and the success flag. -/
def extinguish_fire (s : ModelState) (ai : Nat) (cy cx : Int) (mode : String) :
    ModelState × Bool :=
  match s.agents.get? ai with
  | none => (s, false)
  | some ag =>
    let cell := s.grid (cy, cx)
    if mode = "fire" ∧ cell.fire then
      if 2 ≤ ag.ap then
        ({ s with grid := updCell s.grid (cy, cx) fun c => { c with fire := false },
                  fires := s.fires.erase (cy, cx),
                  agents := s.agents.set ai { ag with ap := ag.ap - 2 } }, true)
      else (s, false)
    else if mode = "convert" ∧ cell.fire then
      if 1 ≤ ag.ap then
        ({ s with
            grid := updCell s.grid (cy, cx) fun c => { c with fire := false, smoke := true },
            fires := s.fires.erase (cy, cx),
            agents := s.agents.set ai { ag with ap := ag.ap - 1 } }, true)
      else (s, false)
    else if mode = "smoke" ∧ cell.smoke then
      if 1 ≤ ag.ap then
        ({ s with grid := updCell s.grid (cy, cx) fun c => { c with smoke := false },
                  agents := s.agents.set ai { ag with ap := ag.ap - 1 } }, true)
      else (s, false)
    else (s, false)

/-- Indices of the agents standing on mesa cell `(x, y)`
(`grid.get_cell_list_contents`). -/
def agentIdxAt (s : ModelState) (x y : Int) : List Nat :=
  (List.range s.agents.length).filter fun i =>
    match s.agents.get? i with
    | some a => decide (a.pos = (x, y))
    | none => false

/-- The valid-cells scan of `replenish_pois`: interior cells with no POI and
at least one side without an intact wall. -/
def validPoiCells (s : ModelState) : List (Int × Int) :=
  (List.range (s.rows - 2)).flatMap fun r0 =>
    (List.range (s.cols - 2)).flatMap fun c0 =>
      let row : Int := (r0 : Int) + 1
      let col : Int := (c0 : Int) + 1
      if (s.grid (row, col)).poi ≠ none then []
      else if (List.range 4).any fun d =>
          !hasWall s row col d || isWallDestroyed s row col d then
        [(row, col)]
      else []

/-- The immediate-discovery loop of `replenish_pois`: the first non-carrying
firefighter on the placement cell picks the fresh victim up at once. -/
def pickupAux (s : ModelState) (row col : Int) (poiType : String) :
    List Nat → ModelState
  | [] => s
  | i :: rest =>
    match s.agents.get? i with
    | some a =>
      if !a.carrying then
        { s with agents := s.agents.set i { a with carrying := true },
                 grid := updCell s.grid (row, col) fun c => { c with poi := none },
                 pois := s.pois.erase (row, col, poiType) }
      else pickupAux s row col poiType rest
    | none => pickupAux s row col poiType rest

/-- The placement attempt of `replenish_pois` over the shuffled candidate
list: skip occupied cells and, for a false alarm, cells with a firefighter;
otherwise clear fire and smoke, place the token and let a present
firefighter discover a victim immediately. -/
def tryPlacePoi (s : ModelState) (poiType : String) :
    List (Int × Int) → ModelState × Bool
  | [] => (s, false)
  | rc :: rest =>
    let row := rc.1
    let col := rc.2
    if (s.grid (row, col)).poi ≠ none then tryPlacePoi s poiType rest
    else
      let ffs := agentIdxAt s col row
      if ffs ≠ [] ∧ poiType = "f" then tryPlacePoi s poiType rest
      else
        let s1 :=
          if (s.grid (row, col)).fire then
            { s with grid := updCell s.grid (row, col) fun c => { c with fire := false },
                     fires :=
                       if (row, col) ∈ s.fires then s.fires.erase (row, col) else s.fires }
          else s
        let s2 :=
          if (s1.grid (row, col)).smoke then
            { s1 with grid := updCell s1.grid (row, col) fun c => { c with smoke := false } }
          else s1
        let s3 := { s2 with
          grid := updCell s2.grid (row, col) fun c => { c with poi := some poiType },
          pois := s2.pois ++ [(row, col, poiType)] }
        let s4 := if ffs ≠ [] ∧ poiType = "v" then pickupAux s3 row col poiType ffs else s3
        (s4, true)

/-- The lazy deck build of `replenish_pois`: when `mazo_pois` is empty it is
refilled with `10 - (victims now active)` victim tokens and
`5 - (false alarms now active)` false-alarm tokens (natural subtraction, as
the source's `max(0, ...)`), shuffled once. -/
def initDeckIfNeeded (s : ModelState) (r : Rng) : ModelState × Rng :=
  if s.mazoPois.length = 0 then
    let iv := (s.pois.filter fun p => decide (p.2.2 = "v")).length
    let ifa := (s.pois.filter fun p => decide (p.2.2 = "f")).length
    let sh := shuffleList (List.replicate (10 - iv) "v" ++ List.replicate (5 - ifa) "f") r
    ({ s with mazoPois := sh.1 }, sh.2)
  else (s, r)

/-- One iteration of the token loop of `replenish_pois` (deck known to be
non-empty): pop the first token, compute and shuffle the candidate cells,
try to place, and on failure return the token to the deck and reshuffle. -/
def replenishOnce (s : ModelState) (r : Rng) : ModelState × Rng :=
  match s.mazoPois with
  | [] => (s, r)
  | poiType :: restDeck =>
    let s0 := { s with mazoPois := restDeck }
    let valid := validPoiCells s0
    if valid = [] then
      let sh := shuffleList (s0.mazoPois ++ [poiType]) r
      ({ s0 with mazoPois := sh.1 }, sh.2)
    else
      let shc := shuffleList valid r
      let pl := tryPlacePoi s0 poiType shc.1
      if pl.2 then (pl.1, shc.2)
      else
        let sh := shuffleList (pl.1.mazoPois ++ [poiType]) shc.2
        ({ pl.1 with mazoPois := sh.1 }, sh.2)

/-- The `for _ in range(pois_to_add)` loop of `replenish_pois`, breaking when
the deck is empty. -/
def replenishLoop : Nat → ModelState → Rng → ModelState × Rng
  | 0, s, r => (s, r)
  | n + 1, s, r =>
    match s.mazoPois with
    | [] => (s, r)
    | _ =>
      let st := replenishOnce s r
      replenishLoop n st.1 st.2

/-- `GameMechanics.replenish_pois`: nothing to do at 3 or more active POIs;
otherwise build the deck lazily if it is empty and try to place the missing
tokens. -/
def replenish_pois (s : ModelState) (r : Rng) : ModelState × Rng :=
  if 3 ≤ s.pois.length then (s, r)
  else
    let d := initDeckIfNeeded s r
    replenishLoop (3 - s.pois.length) d.1 d.2

/-- `DirectionHelper.is_door_open`: the stored state is "open" on either the
given key or, when the neighbour is on the board, the mirrored key. -/
def isDoorOpen (s : ModelState) (y x : Int) (dir : Nat) : Bool :=
  if dictGet s.doorStates (y, x, dir) = some "open" then true
  else
    let a := getAdjacentPosition x y dir
    if inBoundsYX s a.2 a.1 then
      decide (dictGet s.doorStates (a.2, a.1, oppositeDirection dir) = some "open")
    else false

/-- `FirefighterAgent.open_close_door`: toggle an adjacent door (1 AP),
returning success, the door key and the new state. -/
def open_close_door (s : ModelState) (ai : Nat) (dir : Nat) :
    ModelState × Bool × Option WallKey × Option String :=
  match s.agents.get? ai with
  | none => (s, false, none, none)
  | some ag =>
    if ag.ap < 1 then (s, false, none, none)
    else
      let x := ag.pos.1
      let y := ag.pos.2
      if isDoor s y x dir then
        let doorPos : WallKey := (y, x, dir)
        let ds0 :=
          if !dictHas s.doorStates doorPos then dictSet s.doorStates doorPos "closed"
          else s.doorStates
        let current := (dictGet ds0 doorPos).getD "closed"
        let newState := if current = "closed" then "open" else "closed"
        ({ s with doorStates := dictSet ds0 doorPos newState,
                  agents := s.agents.set ai { ag with ap := ag.ap - 1 } },
          true, some doorPos, some newState)
      else (s, false, none, none)

/-- `FirefighterAgent.cut_wall`: damage an adjacent non-perimeter wall
(2 AP). -/
def cut_wall (s : ModelState) (ai : Nat) (dir : Nat) : ModelState × Bool :=
  match s.agents.get? ai with
  | none => (s, false)
  | some ag =>
    if ag.ap < 2 then (s, false)
    else
      let x := ag.pos.1
      let y := ag.pos.2
      if hasWall s y x dir then
        let a := getAdjacentPosition x y dir
        if isPerimeter s a.1 a.2 then (s, false)
        else
          let dw := damage_wall s y x dir
          ({ dw.1 with agents := dw.1.agents.set ai { ag with ap := ag.ap - 2 } }, true)
      else (s, false)

/-- The legal-movement scan of `FirefighterAgent._perform_movement`:
entries `(nx, ny, ap_cost, direction)`.  A perimeter destination is allowed
only at an entry; carrying a victim onto fire is excluded outright. -/
def movementOptions (s : ModelState) (ag : AgentState) :
    List (Int × Int × Nat × Nat) :=
  (List.range 4).filterMap fun dir =>
    let x := ag.pos.1
    let y := ag.pos.2
    let canPass : Bool :=
      if !hasWall s y x dir then true
      else if isWallDestroyed s y x dir then true
      else if isDoor s y x dir then isDoorOpen s y x dir
      else false
    if canPass then
      let a := getAdjacentPosition x y dir
      if inBoundsYX s a.2 a.1 then
        if !isPerimeter s a.1 a.2 || isEntry s a.1 a.2 then
          let dest := s.grid (a.2, a.1)
          let apCost : Nat := if ag.carrying then 2 else if dest.fire then 2 else 1
          if apCost ≤ ag.ap then
            if !(ag.carrying && dest.fire) then some (a.1, a.2, apCost, dir)
            else none
          else none
        else none
      else none
    else none

/-- `FirefighterAgent._perform_movement`: choose a random legal move, move,
pay its cost, then handle POI pickup, false alarms and rescue at an
entry. -/
def perform_movement (s : ModelState) (ai : Nat) (r : Rng) :
    ModelState × Rng × Bool :=
  match s.agents.get? ai with
  | none => (s, r, false)
  | some ag =>
    let movements := movementOptions s ag
    if movements = [] then (s, r, false)
    else
      let ch := randChoice movements (0, 0, 0, 0) r
      let nx := ch.1.1
      let ny := ch.1.2.1
      let apCost := ch.1.2.2.1
      let dir := ch.1.2.2.2
      if isDoor s ag.pos.2 ag.pos.1 dir && !isDoorOpen s ag.pos.2 ag.pos.1 dir then
        (s, ch.2, false)
      else
        let s1 := { s with
          agents := s.agents.set ai { ag with pos := (nx, ny), ap := ag.ap - apCost } }
        let cpoi := (s1.grid (ny, nx)).poi
        let ag1 := (s1.agents.get? ai).getD ag
        let s2r :=
          if cpoi = some "v" ∧ ¬ag1.carrying then
            ({ s1 with agents := s1.agents.set ai { ag1 with carrying := true },
                       grid := updCell s1.grid (ny, nx) fun c => { c with poi := none },
                       pois := removePoiAt s1.pois ny nx }, ch.2)
          else if cpoi = some "f" then
            let sf := { s1 with
              grid := updCell s1.grid (ny, nx) fun c => { c with poi := none },
              pois := removePoiAt s1.pois ny nx }
            replenish_pois sf ch.2
          else (s1, ch.2)
        let ag2 := (s2r.1.agents.get? ai).getD ag
        if ag2.carrying && isEntry s2r.1 nx ny then
          let sr := { s2r.1 with
            agents := s2r.1.agents.set ai { ag2 with carrying := false },
            victimsRescued := s2r.1.victimsRescued + 1 }
          let rp := replenish_pois sr s2r.2
          (rp.1, rp.2, true)
        else (s2r.1, s2r.2, true)

/-- The action names drawn in `FirefighterAgent.step`'s while-loop
("move", "extinguish_fire", ..., "door_i", "cut_i", "pass"). -/
inductive AgentAction where
  | move
  | extFire
  | convFire
  | remSmoke
  | extAdjFire
  | convAdjFire
  | remAdjSmoke
  | door (i : Nat)
  | cut (i : Nat)
  | wait
  deriving Repr, DecidableEq

/-- The adjacent-cells scan at the top of the action loop. -/
def adjacentCellsOf (s : ModelState) (x y : Int) : List (Int × Int) :=
  (List.range 4).filterMap fun dir =>
    let a := getAdjacentPosition x y dir
    if inBoundsYX s a.2 a.1 && canPassWall s y x dir then some (a.2, a.1) else none

/-- The `possible_actions` list of `FirefighterAgent.step`, in the source's
construction order (`wait` is the source's "pass"). -/
def possibleActions (s : ModelState) (ag : AgentState) : List AgentAction :=
  let x := ag.pos.1
  let y := ag.pos.2
  let cell := s.grid (y, x)
  let adj := adjacentCellsOf s x y
  let l1 := [AgentAction.move]
  let l2 := l1 ++ (if cell.fire ∧ 2 ≤ ag.ap then [AgentAction.extFire, .convFire] else [])
  let l3 := l2 ++ (if cell.smoke ∧ 1 ≤ ag.ap then [AgentAction.remSmoke] else [])
  let l4 := l3 ++ adj.flatMap fun p =>
    (if (s.grid p).fire ∧ 2 ≤ ag.ap then [AgentAction.extAdjFire, .convAdjFire] else []) ++
      (if (s.grid p).smoke ∧ 1 ≤ ag.ap then [AgentAction.remAdjSmoke] else [])
  let l5 := l4 ++ (List.range 4).flatMap fun i =>
    let guard : Bool :=
      if i = 0 then decide (0 < y)
      else if i = 1 then decide (x < (s.cols : Int) - 1)
      else if i = 2 then decide (y < (s.rows : Int) - 1)
      else decide (0 < x)
    if guard then
      if (y, x, i) ∈ computeDoorPositions s.doors ∧ 1 ≤ ag.ap then [AgentAction.door i]
      else []
    else []
  let l6 := l5 ++ (List.range 4).flatMap fun i =>
    if cell.walls.getD i 0 = 1 ∧ 2 ≤ ag.ap then
      let isPerim : Bool :=
        decide (i = 0 ∧ y = 1) || decide (i = 1 ∧ x = (s.cols : Int) - 2) ||
          decide (i = 2 ∧ y = (s.rows : Int) - 2) || decide (i = 3 ∧ x = 1) ||
          decide (y = 0 ∧ i = 0) || decide (x = (s.cols : Int) - 1 ∧ i = 1) ||
          decide (y = (s.rows : Int) - 1 ∧ i = 2) || decide (x = 0 ∧ i = 3)
      if isPerim then [] else [AgentAction.cut i]
    else []
  let isAmbulance : Bool := decide (x = 9 ∧ y = 0)
  if l6.length = 0 ∨ ag.ap ≤ 4 ∨ isAmbulance = true then l6 ++ [AgentAction.wait]
  else l6

/-- Dispatch of one chosen action in `FirefighterAgent.step`. -/
def execAction (s : ModelState) (ai : Nat) (act : AgentAction) (r : Rng) :
    ModelState × Rng :=
  match s.agents.get? ai with
  | none => (s, r)
  | some ag =>
    let x := ag.pos.1
    let y := ag.pos.2
    match act with
    | .move =>
      let m := perform_movement s ai r
      (m.1, m.2.1)
    | .extFire => ((extinguish_fire s ai y x "fire").1, r)
    | .convFire => ((extinguish_fire s ai y x "convert").1, r)
    | .remSmoke => ((extinguish_fire s ai y x "smoke").1, r)
    | .extAdjFire =>
      let cells := (adjacentCellsOf s x y).filter fun p => (s.grid p).fire
      if cells = [] then (s, r)
      else
        let ch := randChoice cells (0, 0) r
        ((extinguish_fire s ai ch.1.1 ch.1.2 "fire").1, ch.2)
    | .convAdjFire =>
      let cells := (adjacentCellsOf s x y).filter fun p => (s.grid p).fire
      if cells = [] then (s, r)
      else
        let ch := randChoice cells (0, 0) r
        ((extinguish_fire s ai ch.1.1 ch.1.2 "convert").1, ch.2)
    | .remAdjSmoke =>
      let cells := (adjacentCellsOf s x y).filter fun p => (s.grid p).smoke
      if cells = [] then (s, r)
      else
        let ch := randChoice cells (0, 0) r
        ((extinguish_fire s ai ch.1.1 ch.1.2 "smoke").1, ch.2)
    | .door i => ((open_close_door s ai i).1, r)
    | .cut i => ((cut_wall s ai i).1, r)
    | .wait => (s, r)

/-- The `while self.ap > 0` action loop of `FirefighterAgent.step`.  The
Python loop has no iteration bound (an agent that can neither move nor act
spins forever); the fuel argument makes the embedding total. -/
def agentActLoop : Nat → ModelState → Nat → Rng → ModelState × Rng
  | 0, s, _, r => (s, r)
  | fuel + 1, s, ai, r =>
    match s.agents.get? ai with
    | none => (s, r)
    | some ag =>
      if ag.ap = 0 then (s, r)
      else
        let x := ag.pos.1
        let y := ag.pos.2
        let cpoi := (s.grid (y, x)).poi
        let s1 :=
          if cpoi = some "v" ∧ ¬ag.carrying then
            { s with agents := s.agents.set ai { ag with carrying := true },
                     grid := updCell s.grid (y, x) fun c => { c with poi := none } }
          else if cpoi = some "f" then
            { s with grid := updCell s.grid (y, x) fun c => { c with poi := none } }
          else s
        let ag1 := (s1.agents.get? ai).getD ag
        if ag1.carrying && isEntry s1 x y then
          let sr := { s1 with
            agents := s1.agents.set ai { ag1 with carrying := false },
            victimsRescued := s1.victimsRescued + 1 }
          let rp := replenish_pois sr r
          (rp.1, rp.2)
        else
          let acts := possibleActions s1 ag1
          let ch := randChoice acts .move r
          match ch.1 with
          | .wait => (s1, ch.2)
          | act =>
            let ex := execAction s1 ai act ch.2
            agentActLoop fuel ex.1 ai ex.2

/-- `FirefighterAgent.step`: teleport onto the assigned entry during the
boarding stage, otherwise run the action loop. -/
def agentStep (s : ModelState) (ai : Nat) (r : Rng) : ModelState × Rng :=
  match s.agents.get? ai with
  | none => (s, r)
  | some ag =>
    if s.stage = 1 ∧ ag.assignedEntry.isSome then
      let ag1 := { ag with pos := ag.assignedEntry.getD ag.pos, assignedEntry := none }
      ({ s with agents := s.agents.set ai ag1 }, r)
    else agentActLoop 64 s ai r

/-- Mesa's `RandomActivation.step`: visit the agents once each, in an order
shuffled with the model's random stream. -/
def scheduleStep (s : ModelState) (r : Rng) : ModelState × Rng :=
  let sh := shuffleList (List.range s.agents.length) r
  sh.1.foldl (fun acc i => agentStep acc.1 i acc.2) (s, sh.2)

/-- The scan of `GameMechanics.check_firefighters_in_fire` collecting the
agents standing on burning cells. -/
def injuredIdx (s : ModelState) : List Nat :=
  (List.range s.rows).flatMap fun y =>
    (List.range s.cols).flatMap fun x =>
      if (s.grid ((y : Int), (x : Int))).fire then agentIdxAt s x y else []

/-- Knock down one firefighter: a carried victim is lost (triggering
replenishment), then the agent is moved to the ambulance cell `(9, 0)` with
zero action points. -/
def knockdownOne (s : ModelState) (r : Rng) (i : Nat) : ModelState × Rng :=
  match s.agents.get? i with
  | none => (s, r)
  | some ff =>
    let sr :=
      if ff.carrying then
        replenish_pois
          { s with agents := s.agents.set i { ff with carrying := false },
                   victimsLost := s.victimsLost + 1 } r
      else (s, r)
    match sr.1.agents.get? i with
    | none => sr
    | some ff2 =>
      ({ sr.1 with agents := sr.1.agents.set i { ff2 with pos := (9, 0), ap := 0 } },
        sr.2)

/-- `GameMechanics.check_firefighters_in_fire`. -/
def check_firefighters_in_fire (s : ModelState) (r : Rng) : ModelState × Rng :=
  (injuredIdx s).foldl (fun acc i => knockdownOne acc.1 acc.2 i) (s, r)

/-- The action-point recovery loop inside `FireRescueModel.step`:
`agent.ap = min(agent.ap + 4, agent.max_ap)`. -/
def recoverAp (s : ModelState) : ModelState :=
  { s with agents := s.agents.map fun a => { a with ap := min (a.ap + 4) a.maxAp } }

/-- `GameMechanics.check_end_conditions`: 7 rescued is victory, 4 lost or 24
damage is defeat; any of them makes the run terminal. -/
def check_end_conditions (s : ModelState) : ModelState × Bool :=
  if 7 ≤ s.victimsRescued then ({ s with simulationOver := true }, true)
  else if 4 ≤ s.victimsLost then ({ s with simulationOver := true }, true)
  else if 24 ≤ s.damageCounters then ({ s with simulationOver := true }, true)
  else (s, false)

/-- Ghost markers recording which turn phase ran, in execution order. -/
inductive PhaseTag where
  | agentActions
  | firePropagation
  | knockdown
  | apRecovery
  | poiReplenish
  | endCheck
  deriving Repr, DecidableEq

/-- A turn in flight: state, random stream and the phases run so far. -/
abbrev TurnZ := ModelState × Rng × List PhaseTag

/-- Agent-scheduling phase of `FireRescueModel.step` (`self.schedule.step()`),
recording its tag. -/
def phaseAgents (z : TurnZ) : TurnZ :=
  let a := scheduleStep z.1 z.2.1
  (a.1, a.2, z.2.2 ++ [PhaseTag.agentActions])

/-- Fire-propagation phase (`GameMechanics.advance_fire`). -/
def phaseFire (z : TurnZ) : TurnZ :=
  let f := advance_fire z.1 z.2.1
  (f.1, f.2, z.2.2 ++ [PhaseTag.firePropagation])

/-- Knockdown phase (`GameMechanics.check_firefighters_in_fire`). -/
def phaseKnockdown (z : TurnZ) : TurnZ :=
  let k := check_firefighters_in_fire z.1 z.2.1
  (k.1, k.2, z.2.2 ++ [PhaseTag.knockdown])

/-- Action-point recovery phase (the `for agent in self.schedule.agents`
loop of `step`). -/
def phaseApRecovery (z : TurnZ) : TurnZ :=
  (recoverAp z.1, z.2.1, z.2.2 ++ [PhaseTag.apRecovery])

/-- POI replenishment phase (`GameMechanics.replenish_pois`). -/
def phaseReplenish (z : TurnZ) : TurnZ :=
  let p := replenish_pois z.1 z.2.1
  (p.1, p.2, z.2.2 ++ [PhaseTag.poiReplenish])

/-- End-condition phase (`GameMechanics.check_end_conditions`). -/
def phaseEndCheck (z : TurnZ) : TurnZ :=
  ((check_end_conditions z.1).1, z.2.1, z.2.2 ++ [PhaseTag.endCheck])

/-- `FireRescueModel.step`: refuse terminal states; bump the turn counter and
enter stage 1 on the first turn; run the agents; then, under the source's
turn condition, fire propagation, knockdown, action-point recovery and POI
replenishment, in that order; finally evaluate the end conditions.  The
phase trace is ghost instrumentation recording the execution order. -/
def modelStep (s : ModelState) (r : Rng) : TurnZ :=
  if s.simulationOver then (s, r, [])
  else
    let s0 := { s with stepCount := s.stepCount + 1 }
    let s1 := if s0.stage = 0 ∧ s0.stepCount = 1 then { s0 with stage := 1 } else s0
    let z1 := phaseAgents (s1, r, [])
    let z2 :=
      if 1 < s1.stepCount ∨ (s1.stepCount = 1 ∧ s1.stage = 1) then
        phaseReplenish (phaseApRecovery (phaseKnockdown (phaseFire z1)))
      else z1
    phaseEndCheck z2

/-- Well-formedness of the parsed grid: every cell carries exactly the four
wall bits built by `ScenarioParser.build_grid_state`. -/
def WallsWF (s : ModelState) : Prop :=
  ∀ p : Int × Int, (s.grid p).walls.length = 4

/-- The wall-segment invariant of the spec: every damage counter is at most
2, a standing wall has damage below 2, and a counter at 2 means the wall
bit is gone from the origin cell and from the on-board mirrored cell. -/
def WallInv (s : ModelState) : Prop :=
  ∀ (y x : Int) (d : Nat),
    (dictGet s.wallDamage (y, x, d)).getD 0 ≤ 2 ∧
    (hasWall s y x d = true → (dictGet s.wallDamage (y, x, d)).getD 0 < 2) ∧
    ((dictGet s.wallDamage (y, x, d)).getD 0 = 2 →
      hasWall s y x d = false ∧
      (inBoundsYX s (getAdjacentPosition x y d).2 (getAdjacentPosition x y d).1 = true →
        hasWall s (getAdjacentPosition x y d).2 (getAdjacentPosition x y d).1
          (oppositeDirection d) = false))

/-- States reachable from a fresh model (`wall_damage = {}`) by the three
wall-damaging operations: explosion rays, shockwaves and firefighter wall
cuts. -/
inductive ReachWall : ModelState → Prop where
  | init (s : ModelState) : WallsWF s → s.wallDamage = [] → ReachWall s
  | explosion (s : ModelState) (row col : Int) (dir : Nat) :
      ReachWall s → ReachWall (propagate_explosion s row col dir)
  | shock (s : ModelState) (row col : Int) (dir : Nat) :
      ReachWall s → ReachWall (shockwave s row col dir)
  | cut (s : ModelState) (ai : Nat) (dir : Nat) :
      ReachWall s → ReachWall (cut_wall s ai dir).1

/-- Fire and smoke are never simultaneously set on one cell. -/
def MutexFS (s : ModelState) : Prop :=
  ∀ p : Int × Int, ¬((s.grid p).fire = true ∧ (s.grid p).smoke = true)

/-- States reachable from a freshly parsed scenario (no smoke anywhere, as
`build_grid_state` creates it) by the public fire/smoke operations: the
per-turn ignition roll with its explosion and flashover, standalone
explosion rays and shockwaves, the three extinguish actions, and POI
placement through `replenish_pois`. -/
inductive ReachFS : ModelState → Prop where
  | init (s : ModelState) : (∀ p : Int × Int, (s.grid p).smoke = false) → ReachFS s
  | ignite (s : ModelState) (r : Rng) : ReachFS s → ReachFS (advance_fire s r).1
  | explosion (s : ModelState) (row col : Int) (dir : Nat) :
      ReachFS s → ReachFS (propagate_explosion s row col dir)
  | shock (s : ModelState) (row col : Int) (dir : Nat) :
      ReachFS s → ReachFS (shockwave s row col dir)
  | ext (s : ModelState) (ai : Nat) (cy cx : Int) (mode : String) :
      ReachFS s → ReachFS (extinguish_fire s ai cy cx mode).1
  | repl (s : ModelState) (r : Rng) : ReachFS s → ReachFS (replenish_pois s r).1

/-- The live door table never stores the value "cerrada": doors are created
"closed" and toggled between "closed" and "open" only. -/
def NoCerrada (s : ModelState) : Prop :=
  ∀ k v, dictGet s.doorStates k = some v → v ≠ "cerrada"

/-- A cell with no walls and nothing on it. -/
def cellEmpty : Cell := { walls := [0, 0, 0, 0], fire := false, smoke := false, poi := none }

/-- A wall-less burning cell. -/
def cellFire : Cell := { cellEmpty with fire := true }

/-- A wall-less cell holding a POI token. -/
def cellPoi (t : String) : Cell := { cellEmpty with poi := some t }

/-- A model state with every field empty, on the shipped 8 x 10 board;
the base the concrete test states below are built from. -/
def stBase : ModelState where
  rows := 8
  cols := 10
  grid := fun _ => cellEmpty
  doors := []
  doorStates := []
  wallDamage := []
  fires := []
  pois := []
  entries := []
  agents := []
  victimsLost := 0
  victimsRescued := 0
  damageCounters := 0
  simulationOver := false
  mazoPois := []
  stepCount := 0
  stage := 0

/-- A single interior fire at `(1, 1)` on an otherwise empty board, adjacent
to the perimeter cell `(0, 1)` through a wall-less boundary. -/
def stC1 : ModelState :=
  { stBase with
    grid := fun p => if p = (1, 1) then cellFire else cellEmpty
    fires := [(1, 1)] }

/-- An intact wall with one damage point between `(2, 3)` and `(2, 4)`
(east bit of the first, west bit of the second). -/
def stC2 : ModelState :=
  { stBase with
    grid := fun p =>
      if p = (2, 3) then { cellEmpty with walls := [0, 1, 0, 0] }
      else if p = (2, 4) then { cellEmpty with walls := [0, 0, 0, 1] }
      else cellEmpty
    wallDamage := [((2, 3, 1), 1)] }

/-- A fresh-scenario state with a single fire at `(2, 2)` (no smoke
anywhere). -/
def stC3 : ModelState :=
  { stBase with
    grid := fun p => if p = (2, 2) then cellFire else cellEmpty
    fires := [(2, 2)] }

/-- An undamaged wall between `(2, 3)` and `(2, 4)` and a firefighter with 4
action points standing at mesa position `(3, 2)` (cell `(2, 3)`). -/
def stC4 : ModelState :=
  { stBase with
    grid := fun p =>
      if p = (2, 3) then { cellEmpty with walls := [0, 1, 0, 0] }
      else if p = (2, 4) then { cellEmpty with walls := [0, 0, 0, 1] }
      else cellEmpty
    agents := [{ uid := 0, pos := (3, 2), ap := 4, carrying := false,
                 assignedEntry := none, maxAp := 8 }] }

/-- A quiet board with the full complement of three active POIs, used to run
one whole turn. -/
def stC5 : ModelState :=
  { stBase with
    grid := fun p =>
      if p = (2, 2) then cellPoi "v"
      else if p = (2, 3) then cellPoi "v"
      else if p = (2, 4) then cellPoi "f"
      else cellEmpty
    pois := [(2, 2, "v"), (2, 3, "v"), (2, 4, "f")] }

/-- The first-deficit situation for the POI deck: of the scenario's three
pre-placed tokens (two victims, one false alarm) one victim has already been
lost to fire, so two POIs are active when `replenish_pois` first builds the
deck. -/
def stC6 : ModelState :=
  { stBase with
    rows := 4
    cols := 4
    grid := fun p =>
      if p = (1, 1) then cellPoi "v"
      else if p = (1, 2) then cellPoi "f"
      else cellEmpty
    pois := [(1, 1, "v"), (1, 2, "f")]
    victimsLost := 1 }

/-- One closed door between `(1, 3)` and `(1, 4)` with a firefighter on each
side: agent 0 at mesa `(3, 1)` (cell `(1, 3)`), agent 1 at mesa `(4, 1)`
(cell `(1, 4)`). -/
def stC7 : ModelState :=
  { stBase with
    doors := [((1, 3), (1, 4))]
    doorStates := [((1, 3, 1), "closed")]
    agents := [{ uid := 0, pos := (3, 1), ap := 4, carrying := false,
                 assignedEntry := none, maxAp := 8 },
               { uid := 1, pos := (4, 1), ap := 4, carrying := false,
                 assignedEntry := none, maxAp := 8 }] }

/-- A closed door on the segment between `(2, 3)` and `(2, 4)` lying in the
path of a shockwave travelling east. -/
def stC10 : ModelState :=
  { stBase with
    doors := [((2, 3), (2, 4))]
    doorStates := [((2, 3, 1), "closed")] }

/-- The two wall invariants bundled for threading through the damage
operations: well-formed wall lists and the damage-counter invariant. -/
def WInv (s : ModelState) : Prop := WallsWF s ∧ WallInv s

theorem find?_filter_ne {κ β : Type} [DecidableEq κ] (l : List (κ × β)) (k k' : κ)
    (h : k' ≠ k) :
    (l.filter fun p => decide (p.1 ≠ k)).find? (fun p => decide (p.1 = k')) =
      l.find? (fun p => decide (p.1 = k')) := by
  induction l with
  | nil => rfl
  | cons a t ih =>
    by_cases ha : a.1 = k
    · rw [List.filter_cons_of_neg (by simp [ha]), ih,
        List.find?_cons_of_neg _ (by simp [ha]; exact fun hh => h hh.symm)]
    · rw [List.filter_cons_of_pos (by simp [ha])]
      by_cases ha' : a.1 = k'
      · rw [List.find?_cons_of_pos _ (by simp [ha']),
          List.find?_cons_of_pos _ (by simp [ha'])]
      · rw [List.find?_cons_of_neg _ (by simp [ha']),
          List.find?_cons_of_neg _ (by simp [ha']), ih]

theorem dictGet_dictSet_self {κ β : Type} [DecidableEq κ] (l : List (κ × β)) (k : κ)
    (v : β) : dictGet (dictSet l k v) k = some v := by
  simp only [dictGet, dictSet]
  rw [List.find?_cons_of_pos _ (by simp)]
  rfl

theorem dictGet_dictSet_ne {κ β : Type} [DecidableEq κ] (l : List (κ × β)) (k k' : κ)
    (v : β) (h : k' ≠ k) : dictGet (dictSet l k v) k' = dictGet l k' := by
  simp only [dictGet, dictSet]
  rw [List.find?_cons_of_neg _ (by simp; exact fun hh => h hh.symm),
    find?_filter_ne l k k' h]

theorem dictGet_dictDel_self {κ β : Type} [DecidableEq κ] (l : List (κ × β)) (k : κ) :
    dictGet (dictDel l k) k = none := by
  simp only [dictGet, dictDel]
  induction l with
  | nil => rfl
  | cons a t ih =>
    by_cases ha : a.1 = k
    · rw [List.filter_cons_of_neg (by simp [ha])]
      exact ih
    · rw [List.filter_cons_of_pos (by simp [ha]),
        List.find?_cons_of_neg _ (by simp [ha])]
      exact ih

theorem dictGet_dictDel_ne {κ β : Type} [DecidableEq κ] (l : List (κ × β)) (k k' : κ)
    (h : k' ≠ k) : dictGet (dictDel l k) k' = dictGet l k' := by
  simp only [dictGet, dictDel]
  rw [find?_filter_ne l k k' h]

theorem getD_set_self_zero (l : List Nat) (n : Nat) : (l.set n 0).getD n 0 = 0 := by
  induction l generalizing n with
  | nil => simp [List.getD]
  | cons a t ih =>
    cases n with
    | zero => simp [List.set, List.getD]
    | succ m => simpa [List.set, List.getD] using ih m

theorem getD_set_ne (l : List Nat) (n m : Nat) (v : Nat) (h : m ≠ n) :
    (l.set n v).getD m 0 = l.getD m 0 := by
  induction l generalizing n m with
  | nil => simp [List.getD]
  | cons a t ih =>
    cases n with
    | zero =>
      cases m with
      | zero => exact absurd rfl h
      | succ m' => simp [List.set, List.getD]
    | succ n' =>
      cases m with
      | zero => simp [List.set, List.getD]
      | succ m' => simpa [List.set, List.getD] using ih n' m' fun hh => h (by omega)

theorem updCell_apply (g : Int × Int → Cell) (p q : Int × Int) (f : Cell → Cell) :
    updCell g p f q = if q = p then f (g p) else g q := by
  simp [updCell, Function.update_apply]

theorem damage_wall_doorStates (s : ModelState) (y x : Int) (d : Nat) :
    (damage_wall s y x d).1.doorStates = s.doorStates := by
  simp only [damage_wall]
  split <;> (try split) <;> rfl

theorem damage_wall_rows (s : ModelState) (y x : Int) (d : Nat) :
    (damage_wall s y x d).1.rows = s.rows := by
  simp only [damage_wall]
  split <;> (try split) <;> rfl

theorem damage_wall_cols (s : ModelState) (y x : Int) (d : Nat) :
    (damage_wall s y x d).1.cols = s.cols := by
  simp only [damage_wall]
  split <;> (try split) <;> rfl

theorem updCell_setWalls_fire (g : Int × Int → Cell) (q : Int × Int) (d : Nat)
    (p : Int × Int) :
    ((updCell g q fun c => { c with walls := c.walls.set d 0 }) p).fire = (g p).fire := by
  rw [updCell_apply]
  split
  · rename_i h
    subst h
    rfl
  · rfl

theorem updCell_setWalls_smoke (g : Int × Int → Cell) (q : Int × Int) (d : Nat)
    (p : Int × Int) :
    ((updCell g q fun c => { c with walls := c.walls.set d 0 }) p).smoke = (g p).smoke := by
  rw [updCell_apply]
  split
  · rename_i h
    subst h
    rfl
  · rfl

theorem updCell_setWalls_poi (g : Int × Int → Cell) (q : Int × Int) (d : Nat)
    (p : Int × Int) :
    ((updCell g q fun c => { c with walls := c.walls.set d 0 }) p).poi = (g p).poi := by
  rw [updCell_apply]
  split
  · rename_i h
    subst h
    rfl
  · rfl

theorem damage_wall_grid_fire (s : ModelState) (y x : Int) (d : Nat) (p : Int × Int) :
    ((damage_wall s y x d).1.grid p).fire = (s.grid p).fire := by
  simp only [damage_wall]
  split <;> (try split) <;> (try simp only [updCell_setWalls_fire]) <;> rfl

theorem damage_wall_grid_smoke (s : ModelState) (y x : Int) (d : Nat) (p : Int × Int) :
    ((damage_wall s y x d).1.grid p).smoke = (s.grid p).smoke := by
  simp only [damage_wall]
  split <;> (try split) <;> (try simp only [updCell_setWalls_smoke]) <;> rfl

theorem damage_wall_grid_poi (s : ModelState) (y x : Int) (d : Nat) (p : Int × Int) :
    ((damage_wall s y x d).1.grid p).poi = (s.grid p).poi := by
  simp only [damage_wall]
  split <;> (try split) <;> (try simp only [updCell_setWalls_poi]) <;> rfl

theorem shockwaveObstacles_door (s : ModelState) (px py : Int) (dir : Nat)
    (hdoor : ((py, px, dir) : WallKey) ∈ computeDoorPositions s.doors)
    (hnc : NoCerrada s) : shockwaveObstacles s px py dir = (s, false) := by
  unfold shockwaveObstacles
  dsimp only
  rw [if_pos hdoor]
  cases hget : dictGet s.doorStates (py, px, dir) with
  | none => rfl
  | some st =>
    have hne := hnc _ _ hget
    dsimp only
    rw [if_neg hne]

theorem shockwaveObstacles_doorStates (s : ModelState) (px py : Int) (dir : Nat)
    (hnc : NoCerrada s) :
    (shockwaveObstacles s px py dir).1.doorStates = s.doorStates := by
  unfold shockwaveObstacles
  dsimp only
  split
  · rename_i hdoor
    cases hget : dictGet s.doorStates (py, px, dir) with
    | none => rfl
    | some st =>
      have hne := hnc _ _ hget
      dsimp only
      rw [if_neg hne]
  · split
    · split
      · rfl
      · split <;> simp [damage_wall_doorStates]
    · rfl

theorem shockwaveRest_doorStates (s : ModelState) (x y : Int) :
    (shockwaveRest s x y).state.doorStates = s.doorStates := by
  unfold shockwaveRest
  dsimp only
  split
  · rfl
  · split <;> (try split) <;> (try split) <;> rfl

theorem shockwaveStep_doorStates (s : ModelState) (px py : Int) (dir : Nat)
    (hnc : NoCerrada s) :
    (shockwaveStep s px py dir).state.doorStates = s.doorStates := by
  unfold shockwaveStep
  dsimp only
  split
  · rfl
  · split
    · rename_i hob
      exact shockwaveObstacles_doorStates s px py dir hnc
    · rw [shockwaveRest_doorStates]
      exact shockwaveObstacles_doorStates s px py dir hnc

theorem shockwaveLoop_doorStates (fuel : Nat) (s : ModelState) (px py : Int)
    (dir : Nat) (hnc : NoCerrada s) :
    (shockwaveLoop fuel s px py dir).doorStates = s.doorStates := by
  induction fuel generalizing s px py with
  | zero => rfl
  | succ n ih =>
    unfold shockwaveLoop
    cases hstep : shockwaveStep s px py dir with
    | halt s1 =>
      have hx := shockwaveStep_doorStates s px py dir hnc
      rw [hstep] at hx
      exact hx
    | cont s1 x y =>
      have hx := shockwaveStep_doorStates s px py dir hnc
      rw [hstep] at hx
      have hnc1 : NoCerrada s1 := by
        intro k v hv
        refine hnc k v ?_
        rw [← hx]
        exact hv
      rw [ih s1 x y hnc1]
      exact hx

theorem shockwave_doorStates (s : ModelState) (row col : Int) (dir : Nat)
    (hnc : NoCerrada s) : (shockwave s row col dir).doorStates = s.doorStates :=
  shockwaveLoop_doorStates _ s col row dir hnc

theorem oppositeDirection_ne (d : Nat) : oppositeDirection d ≠ d := by
  unfold oppositeDirection
  omega

theorem not_destroyed_dmg_lt (s : ModelState) (y x : Int) (d : Nat)
    (h : isWallDestroyed s y x d = false) :
    (dictGet s.wallDamage (y, x, d)).getD 0 < 2 := by
  unfold isWallDestroyed at h
  cases hg : dictGet s.wallDamage (y, x, d) with
  | none => simp [hg]
  | some n =>
    rw [hg] at h
    simp at h
    simpa [hg] using h

theorem dmg_lt_not_destroyed (s : ModelState) (y x : Int) (d : Nat)
    (h : (dictGet s.wallDamage (y, x, d)).getD 0 < 2) :
    isWallDestroyed s y x d = false := by
  unfold isWallDestroyed
  cases hg : dictGet s.wallDamage (y, x, d) with
  | none => rfl
  | some n =>
    rw [hg] at h
    simp at h
    simp
    omega

theorem updCell_setPoi_fire (g : Int × Int → Cell) (q p : Int × Int) :
    ((updCell g q fun c => { c with poi := none }) p).fire = (g p).fire := by
  rw [updCell_apply]
  split
  · rename_i h
    subst h
    rfl
  · rfl

theorem damage_wall_not_destroy (s : ModelState) (y x : Int) (d : Nat)
    (hg : (dictGet s.wallDamage (y, x, d)).getD 0 = 0) :
    damage_wall s y x d =
      ({ s with wallDamage := dictSet s.wallDamage (y, x, d) 1,
                damageCounters := s.damageCounters + 1 }, false) := by
  unfold damage_wall
  dsimp only
  have h1 : (match dictGet s.wallDamage (y, x, d) with
      | none => 1
      | some n => n + 1) = 1 := by
    cases hgg : dictGet s.wallDamage (y, x, d) with
    | none => rfl
    | some n =>
      rw [hgg] at hg
      simp at hg
      simp [hg]
  rw [h1, if_neg (by omega)]

theorem damage_wall_destroy_parts (s : ModelState) (y x : Int) (d : Nat)
    (hg : (dictGet s.wallDamage (y, x, d)).getD 0 = 1)
    (hb : inBoundsYX s (getAdjacentPosition x y d).2 (getAdjacentPosition x y d).1 = true) :
    (damage_wall s y x d).2 = true ∧
      hasWall (damage_wall s y x d).1 y x d = false ∧
      hasWall (damage_wall s y x d).1 (getAdjacentPosition x y d).2
        (getAdjacentPosition x y d).1 (oppositeDirection d) = false ∧
      dictGet (damage_wall s y x d).1.wallDamage (y, x, d) = some 2 ∧
      dictGet (damage_wall s y x d).1.wallDamage
        ((getAdjacentPosition x y d).2, (getAdjacentPosition x y d).1,
          oppositeDirection d) = some 2 := by
  have hkeys : ((getAdjacentPosition x y d).2, (getAdjacentPosition x y d).1,
      oppositeDirection d) ≠ ((y, x, d) : WallKey) := by
    intro hh
    exact oppositeDirection_ne d (congrArg (fun k : WallKey => k.2.2) hh)
  have h1 : (match dictGet s.wallDamage (y, x, d) with
      | none => 1
      | some n => n + 1) = 2 := by
    cases hgg : dictGet s.wallDamage (y, x, d) with
    | none => rw [hgg] at hg; simp at hg
    | some n =>
      rw [hgg] at hg
      simp at hg
      simp [hg]
  have hkeys' : ((y, x, d) : WallKey) ≠
      ((getAdjacentPosition x y d).2, (getAdjacentPosition x y d).1,
        oppositeDirection d) := fun hh => hkeys hh.symm
  unfold damage_wall
  dsimp only
  rw [h1, if_pos (by omega : 2 ≤ 2), if_pos hb]
  refine ⟨rfl, ?_, ?_, ?_, ?_⟩
  · unfold hasWall
    dsimp only
    rw [updCell_apply]
    split
    · rename_i hh
      rw [← hh, updCell_apply, if_pos rfl]
      dsimp only
      rw [getD_set_ne _ _ _ _ (fun hd => oppositeDirection_ne d hd.symm),
        getD_set_self_zero]
      rfl
    · rw [updCell_apply, if_pos rfl]
      dsimp only
      rw [getD_set_self_zero]
      rfl
  · unfold hasWall
    dsimp only
    rw [updCell_apply, if_pos rfl]
    dsimp only
    rw [getD_set_self_zero]
    rfl
  · rw [dictGet_dictSet_ne _ _ _ _ hkeys', dictGet_dictSet_self]
  · rw [dictGet_dictSet_self]

theorem explosionStep_wall (s : ModelState) (x y : Int) (dir : Nat)
    (hb : inBoundsYX s (y + (DIRECTIONS.getD dir (0, 0)).2)
        (x + (DIRECTIONS.getD dir (0, 0)).1) = true)
    (hperim : isPerimeter s (x + (DIRECTIONS.getD dir (0, 0)).1)
        (y + (DIRECTIONS.getD dir (0, 0)).2) = false)
    (hdoor : ((y, x, dir) : WallKey) ∉ computeDoorPositions s.doors)
    (hw : hasWall s y x dir = true)
    (hnd : isWallDestroyed s y x dir = false) :
    explosionStep s x y dir =
      (if !(damage_wall s y x dir).2 then RayStep.halt (damage_wall s y x dir).1
       else explosionEnter (damage_wall s y x dir).1
          (x + (DIRECTIONS.getD dir (0, 0)).1) (y + (DIRECTIONS.getD dir (0, 0)).2) dir) := by
  unfold explosionStep
  dsimp only
  rw [hb, hperim]
  simp only [Bool.not_true, Bool.false_eq_true, if_false]
  rw [if_neg hdoor, hw, hnd]
  simp only [Bool.not_false, Bool.and_true, if_true]

theorem explosionEnter_fire_after (s : ModelState) (x y : Int) (dir : Nat)
    (hf : (s.grid (y, x)).fire = false) :
    (((explosionEnter s x y dir).state).grid (y, x)).fire = true := by
  unfold explosionEnter
  dsimp only
  have hpres : ∀ t : ModelState,
      t.grid = updCell s.grid (y, x) (fun c => { c with poi := none }) →
      (t.grid (y, x)).fire = false := by
    intro t ht
    rw [ht, updCell_apply, if_pos rfl]
    exact hf
  split
  · rename_i hpv
    try dsimp only
    split
    · dsimp only [RayStep.state]
      rw [updCell_apply, if_pos rfl]
    · split
      · dsimp only [RayStep.state]
        rw [updCell_apply, if_pos rfl]
      · rename_i hsm hfr
        rw [updCell_apply, if_pos rfl] at hfr
        simp [hf] at hfr
  · try dsimp only
    split
    · dsimp only [RayStep.state]
      rw [updCell_apply, if_pos rfl]
    · split
      · dsimp only [RayStep.state]
        rw [updCell_apply, if_pos rfl]
      · rename_i hsm hfr
        simp [hf] at hfr

/-- C2: when an explosion ray meets an intact, non-perimeter wall segment
with no door on it, the wall absorbs exactly one damage point; if the hit
leaves the damage below 2 the ray stops and the state changes only by that
damage entry and the cumulative counter (no cell beyond the wall is
affected); if the hit is the second one the wall is removed from both
mirrored cells, both mirrored damage entries read 2, and the ray continues
into the next cell, igniting it when it was not already burning. -/
theorem c2_explosion_wall_absorbs_stops_or_destroys
    (s : ModelState) (x y : Int) (dir : Nat)
    (hb : inBoundsYX s (y + (DIRECTIONS.getD dir (0, 0)).2)
        (x + (DIRECTIONS.getD dir (0, 0)).1) = true)
    (hperim : isPerimeter s (x + (DIRECTIONS.getD dir (0, 0)).1)
        (y + (DIRECTIONS.getD dir (0, 0)).2) = false)
    (hdoor : ((y, x, dir) : WallKey) ∉ computeDoorPositions s.doors)
    (hw : hasWall s y x dir = true)
    (hdmg : (dictGet s.wallDamage (y, x, dir)).getD 0 < 2) :
    dictGet (damage_wall s y x dir).1.wallDamage (y, x, dir) =
      some ((dictGet s.wallDamage (y, x, dir)).getD 0 + 1) ∧
    ((dictGet s.wallDamage (y, x, dir)).getD 0 = 0 →
      explosionStep s x y dir = RayStep.halt (damage_wall s y x dir).1 ∧
      (damage_wall s y x dir).1 =
        { s with wallDamage := dictSet s.wallDamage (y, x, dir) 1,
                 damageCounters := s.damageCounters + 1 } ∧
      ∀ fuel, explosionLoop (fuel + 1) s x y dir = (damage_wall s y x dir).1) ∧
    ((dictGet s.wallDamage (y, x, dir)).getD 0 = 1 →
      explosionStep s x y dir =
        explosionEnter (damage_wall s y x dir).1
          (x + (DIRECTIONS.getD dir (0, 0)).1) (y + (DIRECTIONS.getD dir (0, 0)).2) dir ∧
      hasWall (damage_wall s y x dir).1 y x dir = false ∧
      hasWall (damage_wall s y x dir).1 (y + (DIRECTIONS.getD dir (0, 0)).2)
        (x + (DIRECTIONS.getD dir (0, 0)).1) (oppositeDirection dir) = false ∧
      dictGet (damage_wall s y x dir).1.wallDamage
        ((y + (DIRECTIONS.getD dir (0, 0)).2 : Int),
          (x + (DIRECTIONS.getD dir (0, 0)).1 : Int), oppositeDirection dir) = some 2 ∧
      ((s.grid (y + (DIRECTIONS.getD dir (0, 0)).2,
          x + (DIRECTIONS.getD dir (0, 0)).1)).fire = false →
        (((explosionStep s x y dir).state).grid
          (y + (DIRECTIONS.getD dir (0, 0)).2,
            x + (DIRECTIONS.getD dir (0, 0)).1)).fire = true)) := by
  have hnd : isWallDestroyed s y x dir = false := dmg_lt_not_destroyed s y x dir hdmg
  have hstep := explosionStep_wall s x y dir hb hperim hdoor hw hnd
  have h01 : (dictGet s.wallDamage (y, x, dir)).getD 0 = 0 ∨
      (dictGet s.wallDamage (y, x, dir)).getD 0 = 1 := by omega
  refine ⟨?_, ?_, ?_⟩
  · rcases h01 with h0 | h1
    · rw [damage_wall_not_destroy s y x dir h0, h0]
      exact dictGet_dictSet_self _ _ _
    · rw [h1]
      exact (damage_wall_destroy_parts s y x dir h1 hb).2.2.2.1
  · intro h0
    have hdw := damage_wall_not_destroy s y x dir h0
    refine ⟨?_, ?_, ?_⟩
    · rw [hstep, hdw]
      rfl
    · rw [hdw]
    · intro fuel
      unfold explosionLoop
      rw [hstep, hdw]
      rfl
  · intro h1
    obtain ⟨hsnd, hw1, hw2, hdk, hdm⟩ := damage_wall_destroy_parts s y x dir h1 hb
    have hstep2 : explosionStep s x y dir =
        explosionEnter (damage_wall s y x dir).1
          (x + (DIRECTIONS.getD dir (0, 0)).1) (y + (DIRECTIONS.getD dir (0, 0)).2) dir := by
      rw [hstep, hsnd]
      rfl
    refine ⟨hstep2, hw1, hw2, hdm, ?_⟩
    intro hfire
    rw [hstep2]
    exact explosionEnter_fire_after (damage_wall s y x dir).1
      (x + (DIRECTIONS.getD dir (0, 0)).1) (y + (DIRECTIONS.getD dir (0, 0)).2) dir
      (by rw [damage_wall_grid_fire]; exact hfire)

/-- Witness for C2 at the concrete wall of `stC2`, already at one damage
point: the second hit destroys it on both sides and the ray ignites the next
cell. -/
theorem c2_explosion_wall_witness :
    dictGet (damage_wall stC2 2 3 1).1.wallDamage ((2 : Int), (3 : Int), 1) = some 2 ∧
    hasWall (damage_wall stC2 2 3 1).1 2 3 1 = false ∧
    hasWall (damage_wall stC2 2 3 1).1 2 4 (oppositeDirection 1) = false ∧
    (((explosionStep stC2 3 2 1).state).grid (2, 4)).fire = true := by
  have h := c2_explosion_wall_absorbs_stops_or_destroys stC2 3 2 1
    (by decide) (by decide) (by decide) (by decide) (by decide)
  have hd : (dictGet stC2.wallDamage ((2 : Int), (3 : Int), 1)).getD 0 = 1 := by decide
  obtain ⟨h1, -, h3⟩ := h
  obtain ⟨hs, hwa, hwb, hdm, hf⟩ := h3 hd
  have e2 : ((2 : Int) + (DIRECTIONS.getD 1 ((0 : Int), (0 : Int))).2) = 2 := by decide
  have e4 : ((3 : Int) + (DIRECTIONS.getD 1 ((0 : Int), (0 : Int))).1) = 4 := by decide
  rw [hd] at h1
  rw [e2, e4] at hwb hf
  exact ⟨h1, hwa, hwb, hf (by decide)⟩

/-- C10: a door segment that is still present in the live door-state table
(open or closed) neither stops a shockwave ray nor changes state.  The
ray's iteration at the door is exactly the door-free rest of the iteration
on the unchanged state, and a whole shockwave leaves the door table
untouched: the removal branch compares the stored state against "cerrada"
while states are stored as "closed"/"open". -/
theorem c10_shockwave_passes_doors_unchanged (s : ModelState)
    (row col px py : Int) (dir : Nat) (hnc : NoCerrada s)
    (hb : inBoundsYX s (py + (DIRECTIONS.getD dir (0, 0)).2)
        (px + (DIRECTIONS.getD dir (0, 0)).1) = true)
    (hdoor : ((py, px, dir) : WallKey) ∈ computeDoorPositions s.doors) :
    (shockwave s row col dir).doorStates = s.doorStates ∧
      shockwaveStep s px py dir =
        shockwaveRest s (px + (DIRECTIONS.getD dir (0, 0)).1)
          (py + (DIRECTIONS.getD dir (0, 0)).2) := by
  refine ⟨shockwave_doorStates s row col dir hnc, ?_⟩
  unfold shockwaveStep
  dsimp only
  rw [hb]
  simp only [Bool.not_true, Bool.false_eq_true, if_false]
  rw [shockwaveObstacles_door s px py dir hdoor hnc]
  rfl

theorem noCerrada_of_forall (s : ModelState)
    (h : ∀ p ∈ s.doorStates, p.2 ≠ "cerrada") : NoCerrada s := by
  intro k v hv
  unfold dictGet at hv
  cases hf : s.doorStates.find? fun p => decide (p.1 = k) with
  | none =>
    rw [hf] at hv
    cases hv
  | some p =>
    rw [hf] at hv
    have hm := List.mem_of_find?_eq_some hf
    have hpv : p.2 = v := by
      simpa using hv
    rw [← hpv]
    exact h p hm

/-- Witness for C10 on the concrete closed door of `stC10`: the eastbound
shockwave's iteration passes straight through and the door table is kept. -/
theorem c10_shockwave_doors_witness :
    (shockwave stC10 2 3 1).doorStates = stC10.doorStates ∧
      shockwaveStep stC10 3 2 1 =
        shockwaveRest stC10 (3 + (DIRECTIONS.getD 1 ((0 : Int), (0 : Int))).1)
          (2 + (DIRECTIONS.getD 1 ((0 : Int), (0 : Int))).2) :=
  c10_shockwave_passes_doors_unchanged stC10 2 3 3 2 1
    (noCerrada_of_forall stC10 (by decide)) (by decide) (by decide)

/-- C5 (amended): within every processed turn `FireRescueModel.step` runs
its phases in the fixed order: all agent actions, then fire propagation,
then the knockdown check, then action-point recovery (+4 capped at 8), then
POI replenishment, and finally the end-condition evaluation. -/
theorem c5_turn_phase_order (s : ModelState) (r : Rng)
    (hover : s.simulationOver = false) (hstage : s.stage = 0 ∨ s.stage = 1) :
    (modelStep s r).2.2 =
      [PhaseTag.agentActions, PhaseTag.firePropagation, PhaseTag.knockdown,
        PhaseTag.apRecovery, PhaseTag.poiReplenish, PhaseTag.endCheck] := by
  unfold modelStep
  simp only [hover, Bool.false_eq_true, if_false]
  by_cases h0 : s.stepCount = 0
  · rcases hstage with hst | hst
    · simp [h0, hst, phaseAgents, phaseFire, phaseKnockdown, phaseApRecovery,
        phaseReplenish, phaseEndCheck]
    · simp [h0, hst, phaseAgents, phaseFire, phaseKnockdown, phaseApRecovery,
        phaseReplenish, phaseEndCheck]
  · have h2 : ¬(s.stepCount + 1 = 1) := by omega
    have h3 : 1 < s.stepCount + 1 := by omega
    simp [h2, h3, phaseAgents, phaseFire, phaseKnockdown, phaseApRecovery,
      phaseReplenish, phaseEndCheck]

/-- Witness for the amended C5 on a concrete quiet turn. -/
theorem c5_turn_phase_order_witness :
    (modelStep stC5 []).2.2 =
      [PhaseTag.agentActions, PhaseTag.firePropagation, PhaseTag.knockdown,
        PhaseTag.apRecovery, PhaseTag.poiReplenish, PhaseTag.endCheck] :=
  c5_turn_phase_order stC5 [] (by decide) (Or.inl (by decide))

/-- C5 counterexample: in the concrete turn below the action-point recovery
phase runs strictly before POI replenishment, refuting the claimed order
(replenishment completing before AP recovery). -/
theorem c5_ap_recovery_runs_before_replenish :
    (modelStep stC5 []).2.2 =
      [PhaseTag.agentActions, PhaseTag.firePropagation, PhaseTag.knockdown,
        PhaseTag.apRecovery, PhaseTag.poiReplenish, PhaseTag.endCheck] ∧
    (modelStep stC5 []).2.2.indexOf PhaseTag.apRecovery <
      (modelStep stC5 []).2.2.indexOf PhaseTag.poiReplenish := by
  have h : (modelStep stC5 []).2.2 =
      [PhaseTag.agentActions, PhaseTag.firePropagation, PhaseTag.knockdown,
        PhaseTag.apRecovery, PhaseTag.poiReplenish, PhaseTag.endCheck] := by
    simp [modelStep, stC5, stBase, phaseAgents, phaseFire, phaseKnockdown,
      phaseApRecovery, phaseReplenish, phaseEndCheck]
  refine ⟨h, ?_⟩
  rw [h]
  decide

theorem doorPositions_dir (doors : List ((Int × Int) × (Int × Int))) (k : WallKey)
    (hk : k ∈ computeDoorPositions doors) : k.2.2 = 1 ∨ k.2.2 = 2 := by
  unfold computeDoorPositions at hk
  rcases List.mem_map.1 hk with ⟨pr, hpr, hmap⟩
  by_cases h1 : pr.1.1 = pr.2.1
  · rw [if_pos h1] at hmap
    by_cases h2 : pr.1.2 < pr.2.2
    · rw [if_pos h2] at hmap
      left
      rw [← hmap]
    · rw [if_neg h2] at hmap
      left
      rw [← hmap]
  · rw [if_neg h1] at hmap
    by_cases h2 : pr.1.1 < pr.2.1
    · rw [if_pos h2] at hmap
      right
      rw [← hmap]
    · rw [if_neg h2] at hmap
      right
      rw [← hmap]

theorem getDoorState_mirror_none (s : ModelState) (y x : Int) (d : Nat)
    (hd : d = 0 ∨ d = 3) : getDoorState s y x d = none := by
  unfold getDoorState
  rw [if_neg]
  intro hmem
  have h2 : d = 1 ∨ d = 2 := doorPositions_dir s.doors _ hmem
  rcases h2 with h | h <;> rcases hd with h' | h' <;> omega

theorem isDoor_mirror_false (s : ModelState) (y x : Int) (d : Nat)
    (hd : d = 0 ∨ d = 3) : isDoor s y x d = false := by
  unfold isDoor
  simp only [decide_eq_false_iff_not]
  intro hmem
  have h2 : d = 1 ∨ d = 2 := doorPositions_dir s.doors _ hmem
  rcases h2 with h | h <;> rcases hd with h' | h' <;> omega

/-- C7 (amended): a door's open/closed/destroyed state lives under the
canonical key only — the first cell of the pair with direction east (the
analogous statement holds for vertical pairs with south).  Queries with
direction north or west always report no door, so the mirrored side never
sees the segment's state, before or immediately after a toggle; a toggle is
effective from the canonical side and refused from any cell in the mirrored
orientation. -/
theorem c7_door_state_canonical_side (s : ModelState) (r c1 c2 : Int) (ai : Nat)
    (aag : AgentState)
    (hdoor : ((r, c1), (r, c2)) ∈ s.doors) (hlt : c1 < c2)
    (hga : s.agents.get? ai = some aag) (hpos : aag.pos = (c1, r))
    (hap : 1 ≤ aag.ap)
    (hclosed : dictGet s.doorStates ((r : Int), (c1 : Int), (1 : Nat)) = some "closed") :
    (∀ y x : Int, getDoorState s y x 0 = none ∧ getDoorState s y x 3 = none) ∧
    getDoorState s r c1 1 = some "closed" ∧
    getDoorState s r c2 3 = none ∧
    (open_close_door s ai 1).2.1 = true ∧
    getDoorState (open_close_door s ai 1).1 r c1 1 = some "open" ∧
    getDoorState (open_close_door s ai 1).1 r c2 3 = none ∧
    (∀ j : Nat, open_close_door s j 3 = (s, false, none, none) ∧
      open_close_door s j 0 = (s, false, none, none)) := by
  have hkey : ((r, c1, 1) : WallKey) ∈ computeDoorPositions s.doors := by
    unfold computeDoorPositions
    refine List.mem_map.2 ⟨((r, c1), (r, c2)), hdoor, ?_⟩
    rw [if_pos rfl, if_pos hlt]
  have hrefuse : ∀ (j : Nat) (d : Nat), d = 0 ∨ d = 3 →
      open_close_door s j d = (s, false, none, none) := by
    intro j d hd
    unfold open_close_door
    cases hgb : s.agents.get? j with
    | none => rfl
    | some b =>
      dsimp only
      by_cases hb : b.ap < 1
      · rw [if_pos hb]
      · rw [if_neg hb]
        rw [isDoor_mirror_false s b.pos.2 b.pos.1 d hd]
        rfl
  have htoggle : open_close_door s ai 1 =
      ({ s with doorStates := dictSet s.doorStates (r, c1, 1) "open",
                agents := s.agents.set ai { aag with ap := aag.ap - 1 } },
        true, some (r, c1, 1), some "open") := by
    unfold open_close_door
    rw [hga]
    try dsimp only
    rw [if_neg (by omega), hpos]
    try dsimp only
    have hid : isDoor s r c1 1 = true := decide_eq_true hkey
    rw [hid]
    try dsimp only
    have hhas : dictHas s.doorStates ((r : Int), (c1 : Int), (1 : Nat)) = true := by
      unfold dictHas
      rw [hclosed]
      rfl
    rw [hhas]
    simp only [Bool.not_true, Bool.false_eq_true, if_false, if_true]
    rw [hclosed]
    simp
  refine ⟨fun y x => ⟨getDoorState_mirror_none s y x 0 (Or.inl rfl),
      getDoorState_mirror_none s y x 3 (Or.inr rfl)⟩, ?_, ?_, ?_, ?_, ?_, ?_⟩
  · unfold getDoorState
    rw [if_pos hkey, hclosed]
  · exact getDoorState_mirror_none s r c2 3 (Or.inr rfl)
  · rw [htoggle]
  · rw [htoggle]
    unfold getDoorState
    dsimp only
    rw [if_pos hkey, dictGet_dictSet_self]
  · exact getDoorState_mirror_none _ r c2 3 (Or.inr rfl)
  · exact fun j => ⟨hrefuse j 3 (Or.inr rfl), hrefuse j 0 (Or.inl rfl)⟩

/-- C7 counterexample: on `stC7` the canonical side reports the closed door
while the mirrored cell with the opposite direction reports no door at all,
so the two mirrored observations disagree. -/
theorem c7_mirror_disagrees :
    getDoorState stC7 1 3 1 = some "closed" ∧ getDoorState stC7 1 4 3 = none ∧
      getDoorState stC7 1 3 1 ≠ getDoorState stC7 1 4 3 := by
  decide

/-- Witness for the amended C7 on the concrete door of `stC7`. -/
theorem c7_door_state_witness :
    getDoorState stC7 1 3 1 = some "closed" ∧
    (open_close_door stC7 0 1).2.1 = true ∧
    getDoorState (open_close_door stC7 0 1).1 1 3 1 = some "open" ∧
    getDoorState (open_close_door stC7 0 1).1 1 4 3 = none := by
  have h := c7_door_state_canonical_side stC7 1 3 4 0
    { uid := 0, pos := (3, 1), ap := 4, carrying := false,
      assignedEntry := none, maxAp := 8 }
    (by decide) (by decide) rfl rfl (by decide) (by decide)
  exact ⟨h.2.1, h.2.2.2.1, h.2.2.2.2.1, h.2.2.2.2.2.1⟩

set_option maxHeartbeats 2000000 in
/-- C6: evaluation of `replenish_pois` at the first deficit of `stC6`.  One
pre-placed victim is already lost, so the lazy deck build counts only the
surviving tokens (1 victim, 1 false alarm) and creates 9 victim and 4
false-alarm tokens.  Together with the 2 pre-placed survivors and the lost
victim, 11 victim tokens exist across the scenario (the supply is 10), and
`rescued + lost + active + deck` reaches 16 (the initial supply is 15). -/
theorem c6_deck_overcounts_supply :
    ((replenish_pois stC6 []).1.victimsLost +
      ((replenish_pois stC6 []).1.pois.filter fun p => decide (p.2.2 = "v")).length +
      ((replenish_pois stC6 []).1.mazoPois.filter fun t => decide (t = "v")).length
        = 11) ∧
    ((replenish_pois stC6 []).1.victimsRescued + (replenish_pois stC6 []).1.victimsLost +
      (replenish_pois stC6 []).1.pois.length +
      (replenish_pois stC6 []).1.mazoPois.length = 16) := by
  decide

theorem flashCandidates_intro (s : ModelState) (qy qx d : Nat)
    (hqy : qy < s.rows) (hqx : qx < s.cols)
    (hqfire : (s.grid ((qy : Int), (qx : Int))).fire = true)
    (hd : d < 4) (hpass : canPassWall s qy qx d = true)
    (hin : inBoundsYX s (getAdjacentPosition qx qy d).2
        (getAdjacentPosition qx qy d).1 = true)
    (hper : isPerimeter s (getAdjacentPosition qx qy d).1
        (getAdjacentPosition qx qy d).2 = false)
    (hnf : (s.grid ((getAdjacentPosition qx qy d).2,
        (getAdjacentPosition qx qy d).1)).fire = false) :
    (((getAdjacentPosition qx qy d).2, (getAdjacentPosition qx qy d).1),
        (s.grid ((getAdjacentPosition qx qy d).2,
          (getAdjacentPosition qx qy d).1)).smoke) ∈ flashCandidates s := by
  unfold flashCandidates
  refine List.mem_flatMap.2 ⟨qy, List.mem_range.2 hqy, ?_⟩
  refine List.mem_flatMap.2 ⟨qx, List.mem_range.2 hqx, ?_⟩
  rw [if_pos hqfire]
  refine List.mem_filterMap.2 ⟨d, List.mem_range.2 hd, ?_⟩
  rw [if_pos hpass]
  dsimp only
  rw [if_pos (by rw [hin, hper, hnf]; rfl)]

theorem flashCandidates_elim (s : ModelState) (pr : (Int × Int) × Bool)
    (h : pr ∈ flashCandidates s) :
    pr.2 = (s.grid pr.1).smoke ∧ (s.grid pr.1).fire = false := by
  unfold flashCandidates at h
  rcases List.mem_flatMap.1 h with ⟨y, hy, h1⟩
  rcases List.mem_flatMap.1 h1 with ⟨x, hx, h2⟩
  by_cases hf : (s.grid ((y : Int), (x : Int))).fire = true
  case neg =>
    rw [if_neg hf] at h2
    cases h2
  rw [if_pos hf] at h2
  rcases List.mem_filterMap.1 h2 with ⟨d, hdm, hsome⟩
  by_cases hcp : canPassWall s y x d = true
  case neg =>
    rw [if_neg hcp] at hsome
    cases hsome
  rw [if_pos hcp] at hsome
  dsimp only at hsome
  by_cases hcond : (inBoundsYX s (getAdjacentPosition x y d).2
        (getAdjacentPosition x y d).1 &&
      (!isPerimeter s (getAdjacentPosition x y d).1 (getAdjacentPosition x y d).2) &&
      !(s.grid ((getAdjacentPosition x y d).2,
        (getAdjacentPosition x y d).1)).fire) = true
  case neg =>
    rw [if_neg hcond] at hsome
    cases hsome
  rw [if_pos hcond] at hsome
  have hpr := Option.some.inj hsome
  simp only [Bool.and_eq_true, Bool.not_eq_true'] at hcond
  refine ⟨?_, ?_⟩
  · rw [← hpr]
  · rw [← hpr]
    exact hcond.2

theorem mem_newFires_iff (s : ModelState) (q : Int × Int) :
    q ∈ newFires s ↔ (q, true) ∈ flashCandidates s := by
  unfold newFires
  constructor
  · intro h
    rcases List.mem_filterMap.1 h with ⟨pr, hpr, hf⟩
    by_cases hb : pr.2 = true
    · rw [if_pos hb] at hf
      have h1 := Option.some.inj hf
      have : pr = (q, true) := by
        rcases pr with ⟨a, b⟩
        simp at hb h1
        rw [hb, h1]
      rwa [this] at hpr
    · rw [if_neg hb] at hf
      cases hf
  · intro h
    exact List.mem_filterMap.2 ⟨(q, true), h, by simp⟩

theorem mem_newSmokes_iff (s : ModelState) (q : Int × Int) :
    q ∈ newSmokes s ↔ (q, false) ∈ flashCandidates s := by
  unfold newSmokes
  constructor
  · intro h
    rcases List.mem_filterMap.1 h with ⟨pr, hpr, hf⟩
    by_cases hb : pr.2 = true
    · rw [if_pos hb] at hf
      cases hf
    · rw [if_neg hb] at hf
      have h1 := Option.some.inj hf
      have : pr = (q, false) := by
        rcases pr with ⟨a, b⟩
        simp at hb h1
        rw [hb, h1]
      rwa [this] at hpr
  · intro h
    exact List.mem_filterMap.2 ⟨(q, false), h, by simp⟩

theorem mem_newFires_props (s : ModelState) (q : Int × Int) (h : q ∈ newFires s) :
    (s.grid q).smoke = true ∧ (s.grid q).fire = false := by
  have h2 := flashCandidates_elim s (q, true) ((mem_newFires_iff s q).1 h)
  exact ⟨h2.1.symm, h2.2⟩

theorem mem_newSmokes_props (s : ModelState) (q : Int × Int) (h : q ∈ newSmokes s) :
    (s.grid q).smoke = false ∧ (s.grid q).fire = false := by
  have h2 := flashCandidates_elim s (q, false) ((mem_newSmokes_iff s q).1 h)
  exact ⟨h2.1.symm, h2.2⟩

theorem applyNewFire_fire (s : ModelState) (q p : Int × Int) :
    ((applyNewFire s q).grid p).fire = if p = q then true else (s.grid p).fire := by
  unfold applyNewFire
  dsimp only
  split
  · try dsimp only
    rw [updCell_setPoi_fire, updCell_apply]
    split
    · rename_i hh
      subst hh
      rfl
    · rfl
  · try dsimp only
    rw [updCell_apply]
    split
    · rename_i hh
      subst hh
      rfl
    · rfl

theorem applyNewFire_smoke (s : ModelState) (q p : Int × Int) :
    ((applyNewFire s q).grid p).smoke = if p = q then false else (s.grid p).smoke := by
  unfold applyNewFire
  dsimp only
  have hpoi : ∀ (g : Int × Int → Cell) (w : Int × Int),
      ((updCell g w fun c => { c with poi := none }) p).smoke = (g p).smoke := by
    intro g w
    rw [updCell_apply]
    split
    · rename_i hh
      subst hh
      rfl
    · rfl
  split
  · try dsimp only
    rw [hpoi, updCell_apply]
    split
    · rename_i hh
      subst hh
      rfl
    · rfl
  · try dsimp only
    rw [updCell_apply]
    split
    · rename_i hh
      subst hh
      rfl
    · rfl

theorem applyNewFires_fire (l : List (Int × Int)) (s : ModelState) (p : Int × Int) :
    ((applyNewFires s l).grid p).fire = ((s.grid p).fire || decide (p ∈ l)) := by
  induction l generalizing s with
  | nil => simp [applyNewFires]
  | cons q t ih =>
    show ((applyNewFires (applyNewFire s q) t).grid p).fire = _
    rw [ih, applyNewFire_fire]
    by_cases hpq : p = q
    · simp [hpq]
    · simp [hpq, List.mem_cons]

theorem applyNewFires_smoke (l : List (Int × Int)) (s : ModelState) (p : Int × Int) :
    ((applyNewFires s l).grid p).smoke = ((s.grid p).smoke && !decide (p ∈ l)) := by
  induction l generalizing s with
  | nil => simp [applyNewFires]
  | cons q t ih =>
    show ((applyNewFires (applyNewFire s q) t).grid p).smoke = _
    rw [ih, applyNewFire_smoke]
    by_cases hpq : p = q
    · simp [hpq]
    · simp [hpq, List.mem_cons]

theorem applyNewSmokes_fire (l nf : List (Int × Int)) (s : ModelState) (p : Int × Int) :
    ((applyNewSmokes s nf l).grid p).fire = (s.grid p).fire := by
  induction l generalizing s with
  | nil => rfl
  | cons q t ih =>
    show ((applyNewSmokes (applyNewSmoke nf s q) nf t).grid p).fire = _
    rw [ih]
    unfold applyNewSmoke
    split
    · rfl
    · try dsimp only
      rw [updCell_apply]
      split
      · rename_i hh
        subst hh
        rfl
      · rfl

theorem applyNewSmokes_smoke (l nf : List (Int × Int)) (s : ModelState) (p : Int × Int) :
    ((applyNewSmokes s nf l).grid p).smoke =
      ((s.grid p).smoke || decide (p ∈ l ∧ p ∉ nf)) := by
  induction l generalizing s with
  | nil => simp [applyNewSmokes]
  | cons q t ih =>
    show ((applyNewSmokes (applyNewSmoke nf s q) nf t).grid p).smoke = _
    rw [ih]
    unfold applyNewSmoke
    by_cases hq : q ∈ nf
    · rw [if_pos hq]
      by_cases hpq : p = q
      · subst hpq
        simp [List.mem_cons, hq]
      · simp [List.mem_cons, hpq]
    · rw [if_neg hq]
      try dsimp only
      rw [updCell_apply]
      by_cases hpq : p = q
      · subst hpq
        rw [if_pos rfl]
        simp [List.mem_cons, hq]
      · rw [if_neg hpq]
        simp [List.mem_cons, hpq]

/-- C1 (amended): during a flashover pass, every *non-perimeter* on-board
cell with neither fire nor smoke that is adjacent through a passable
boundary to a pre-existing fire cell ends the pass with smoke and without
fire; a cell gains fire in the pass only if it already had fire or held
smoke before the pass; and a smoke placement aimed at a cell also chosen
for new fire is discarded in favour of fire. -/
theorem c1_flashover_one_hop (s : ModelState) (qy qx d : Nat) (p : Int × Int)
    (hqy : qy < s.rows) (hqx : qx < s.cols)
    (hqfire : (s.grid ((qy : Int), (qx : Int))).fire = true)
    (hd : d < 4)
    (hpass : canPassWall s qy qx d = true)
    (hadj : p = ((getAdjacentPosition qx qy d).2, (getAdjacentPosition qx qy d).1))
    (hpin : inBoundsYX s p.1 p.2 = true)
    (hperim : isPerimeter s p.2 p.1 = false)
    (hpfire : (s.grid p).fire = false) (hpsmoke : (s.grid p).smoke = false) :
    (((flashover s).grid p).smoke = true ∧ ((flashover s).grid p).fire = false) ∧
    (∀ q : Int × Int, ((flashover s).grid q).fire = true →
      (s.grid q).fire = true ∨ (s.grid q).smoke = true) ∧
    (∀ q : Int × Int, q ∈ newSmokes s → q ∈ newFires s →
      ((flashover s).grid q).fire = true ∧ ((flashover s).grid q).smoke = false) := by
  have hmemc : (p, (s.grid p).smoke) ∈ flashCandidates s := by
    rw [hadj]
    subst hadj
    exact flashCandidates_intro s qy qx d hqy hqx hqfire hd hpass hpin hperim hpfire
  have hps : p ∈ newSmokes s := by
    rw [mem_newSmokes_iff]
    rw [hpsmoke] at hmemc
    exact hmemc
  have hpnf : p ∉ newFires s := by
    intro hmem
    have := (mem_newFires_props s p hmem).1
    rw [hpsmoke] at this
    cases this
  refine ⟨⟨?_, ?_⟩, ?_, ?_⟩
  · unfold flashover
    rw [applyNewSmokes_smoke]
    simp [hps, hpnf]
  · unfold flashover
    rw [applyNewSmokes_fire, applyNewFires_fire]
    simp [hpfire, hpnf]
  · intro q hq
    unfold flashover at hq
    rw [applyNewSmokes_fire, applyNewFires_fire] at hq
    rcases Bool.or_eq_true_iff.1 hq with h | h
    · exact Or.inl h
    · exact Or.inr (mem_newFires_props s q (of_decide_eq_true h)).1
  · intro q hqs hqf
    constructor
    · unfold flashover
      rw [applyNewSmokes_fire, applyNewFires_fire]
      simp [hqf]
    · unfold flashover
      rw [applyNewSmokes_smoke, applyNewFires_smoke]
      simp [hqf]

/-- C1 counterexample: on `stC1` the perimeter cell `(0, 1)` is empty and
adjacent through a wall-less, passable boundary to the pre-existing fire at
`(1, 1)`, yet after the flashover pass it holds no smoke: the pass skips
perimeter cells, so the claim as stated (for every cell) fails. -/
theorem c1_perimeter_cell_gets_no_smoke :
    (stC1.grid (0, 1)).fire = false ∧ (stC1.grid (0, 1)).smoke = false ∧
    (stC1.grid (1, 1)).fire = true ∧ canPassWall stC1 1 1 0 = true ∧
    ((0, 1) : Int × Int) =
      ((getAdjacentPosition 1 1 0).2, (getAdjacentPosition 1 1 0).1) ∧
    ((flashover stC1).grid (0, 1)).smoke = false ∧
    ((flashover stC1).grid (0, 1)).fire = false := by
  decide

/-- Witness for the amended C1 at the interior neighbour `(1, 2)` of the
fire at `(1, 1)` in `stC1`. -/
theorem c1_flashover_witness :
    ((flashover stC1).grid (1, 2)).smoke = true ∧
      ((flashover stC1).grid (1, 2)).fire = false :=
  (c1_flashover_one_hop stC1 1 1 1 (1, 2) (by decide) (by decide) (by decide)
    (by decide) (by decide) (by decide) (by decide) (by decide) (by decide)
    (by decide)).1

theorem hasWall_congr (s t : ModelState)
    (hg : ∀ p, (t.grid p).walls = (s.grid p).walls) :
    ∀ y x d, hasWall t y x d = hasWall s y x d := by
  intro y x d
  unfold hasWall
  rw [hg]

theorem WallInv_congr (s t : ModelState)
    (hd : t.wallDamage = s.wallDamage)
    (hg : ∀ p, (t.grid p).walls = (s.grid p).walls)
    (hr : t.rows = s.rows) (hc : t.cols = s.cols)
    (h : WallInv s) : WallInv t := by
  intro y x d
  have hw := hasWall_congr s t hg
  have hb : ∀ yy xx, inBoundsYX t yy xx = inBoundsYX s yy xx := by
    intro yy xx
    unfold inBoundsYX
    rw [hr, hc]
  rcases h y x d with ⟨h1, h2, h3⟩
  refine ⟨by rw [hd]; exact h1, ?_, ?_⟩
  · rw [hd, hw]
    exact h2
  · rw [hd, hw, hb]
    intro hh
    rcases h3 hh with ⟨h4, h5⟩
    refine ⟨h4, fun hbb => ?_⟩
    rw [hw]
    exact h5 hbb

theorem WallsWF_congr (s t : ModelState)
    (hg : ∀ p, (t.grid p).walls = (s.grid p).walls)
    (h : WallsWF s) : WallsWF t := by
  intro p
  rw [hg]
  exact h p

theorem WInv_congr (s t : ModelState)
    (hd : t.wallDamage = s.wallDamage)
    (hg : ∀ p, (t.grid p).walls = (s.grid p).walls)
    (hr : t.rows = s.rows) (hc : t.cols = s.cols)
    (h : WInv s) : WInv t :=
  ⟨WallsWF_congr s t hg h.1, WallInv_congr s t hd hg hr hc h.2⟩

theorem updCell_walls_of (g : Int × Int → Cell) (q : Int × Int) (f : Cell → Cell)
    (p : Int × Int) (hf : ∀ c, (f c).walls = c.walls) :
    ((updCell g q f) p).walls = (g p).walls := by
  rw [updCell_apply]
  split
  · rename_i hh
    subst hh
    exact hf _
  · rfl

theorem hasWall_dir_lt (s : ModelState) (y x : Int) (d : Nat) (hwf : WallsWF s)
    (hw : hasWall s y x d = true) : d < 4 := by
  by_contra hge
  push_neg at hge
  unfold hasWall at hw
  rw [List.getD_eq_default] at hw
  · cases hw
  · rw [hwf (y, x)]
    exact hge

theorem opposite_opposite (d : Nat) (hd : d < 4) :
    oppositeDirection (oppositeDirection d) = d := by
  unfold oppositeDirection
  omega

theorem adj_adj (x y : Int) (d : Nat) (hd : d < 4) :
    getAdjacentPosition (getAdjacentPosition x y d).1 (getAdjacentPosition x y d).2
      (oppositeDirection d) = (x, y) := by
  interval_cases d <;>
    simp [getAdjacentPosition, oppositeDirection, DIRECTIONS, Prod.ext_iff] <;>
    constructor <;> ring

theorem damage_wall_destroy_inb (s : ModelState) (y x : Int) (d : Nat)
    (hg1 : (dictGet s.wallDamage (y, x, d)).getD 0 = 1)
    (hb : inBoundsYX s (getAdjacentPosition x y d).2
      (getAdjacentPosition x y d).1 = true) :
    damage_wall s y x d =
      ({ s with
          grid := updCell
            (updCell s.grid (y, x) fun c => { c with walls := c.walls.set d 0 })
            ((getAdjacentPosition x y d).2, (getAdjacentPosition x y d).1)
            (fun c => { c with walls := c.walls.set (oppositeDirection d) 0 }),
          wallDamage := dictSet (dictSet s.wallDamage (y, x, d) 2)
            ((getAdjacentPosition x y d).2, (getAdjacentPosition x y d).1,
              oppositeDirection d) 2,
          damageCounters := s.damageCounters + 1 }, true) := by
  have h1 : (match dictGet s.wallDamage (y, x, d) with
      | none => 1
      | some n => n + 1) = 2 := by
    cases hgg : dictGet s.wallDamage (y, x, d) with
    | none =>
      rw [hgg] at hg1
      simp at hg1
    | some n =>
      rw [hgg] at hg1
      simp at hg1
      simp [hg1]
  unfold damage_wall
  dsimp only
  rw [h1, if_pos (by omega : 2 ≤ 2), if_pos hb]

theorem damage_wall_destroy_oob (s : ModelState) (y x : Int) (d : Nat)
    (hg1 : (dictGet s.wallDamage (y, x, d)).getD 0 = 1)
    (hb : inBoundsYX s (getAdjacentPosition x y d).2
      (getAdjacentPosition x y d).1 = false) :
    damage_wall s y x d =
      ({ s with
          grid := updCell s.grid (y, x) fun c => { c with walls := c.walls.set d 0 },
          wallDamage := dictSet s.wallDamage (y, x, d) 2,
          damageCounters := s.damageCounters + 1 }, true) := by
  have h1 : (match dictGet s.wallDamage (y, x, d) with
      | none => 1
      | some n => n + 1) = 2 := by
    cases hgg : dictGet s.wallDamage (y, x, d) with
    | none =>
      rw [hgg] at hg1
      simp at hg1
    | some n =>
      rw [hgg] at hg1
      simp at hg1
      simp [hg1]
  unfold damage_wall
  dsimp only
  rw [h1, if_pos (by omega : 2 ≤ 2), if_neg (by rw [hb]; exact Bool.false_ne_true)]

theorem getD_set_zero_cases (w : List Nat) (n dd : Nat) :
    (w.set n 0).getD dd 0 = w.getD dd 0 ∨ (w.set n 0).getD dd 0 = 0 := by
  by_cases h : dd = n
  · subst h
    right
    exact getD_set_self_zero w dd
  · left
    exact getD_set_ne w n dd 0 h

theorem updCell_walls_length_set (g : Int × Int → Cell) (q : Int × Int) (n : Nat)
    (p : Int × Int) :
    ((updCell g q fun c => { c with walls := c.walls.set n 0 }) p).walls.length =
      (g p).walls.length := by
  rw [updCell_apply]
  split
  · rename_i hh
    subst hh
    dsimp only
    simp
  · rfl

theorem WallInv_other_key (s t : ModelState)
    (hgW : ∀ (p : Int × Int) (dd : Nat),
      (t.grid p).walls.getD dd 0 = (s.grid p).walls.getD dd 0 ∨
        (t.grid p).walls.getD dd 0 = 0)
    (hr : t.rows = s.rows) (hc : t.cols = s.cols)
    (hinv : WallInv s) (y' x' : Int) (d' : Nat)
    (hdg : dictGet t.wallDamage (y', x', d') = dictGet s.wallDamage (y', x', d')) :
    (dictGet t.wallDamage (y', x', d')).getD 0 ≤ 2 ∧
    (hasWall t y' x' d' = true → (dictGet t.wallDamage (y', x', d')).getD 0 < 2) ∧
    ((dictGet t.wallDamage (y', x', d')).getD 0 = 2 →
      hasWall t y' x' d' = false ∧
      (inBoundsYX t (getAdjacentPosition x' y' d').2
          (getAdjacentPosition x' y' d').1 = true →
        hasWall t (getAdjacentPosition x' y' d').2 (getAdjacentPosition x' y' d').1
          (oppositeDirection d') = false)) := by
  have hWtrue : ∀ (yy xx : Int) (dd : Nat),
      hasWall t yy xx dd = true → hasWall s yy xx dd = true := by
    intro yy xx dd h
    unfold hasWall at h ⊢
    rcases hgW (yy, xx) dd with he | hz
    · rw [← he]
      exact h
    · rw [hz] at h
      cases h
  have hWfalse : ∀ (yy xx : Int) (dd : Nat),
      hasWall s yy xx dd = false → hasWall t yy xx dd = false := by
    intro yy xx dd h
    unfold hasWall at h ⊢
    rcases hgW (yy, xx) dd with he | hz
    · rw [he]
      exact h
    · rw [hz]
      rfl
  have hbb : ∀ yy xx, inBoundsYX t yy xx = inBoundsYX s yy xx := by
    intro yy xx
    unfold inBoundsYX
    rw [hr, hc]
  rcases hinv y' x' d' with ⟨h1, h2, h3⟩
  rw [hdg]
  refine ⟨h1, ?_, ?_⟩
  · intro h
    exact h2 (hWtrue _ _ _ h)
  · intro h
    rcases h3 h with ⟨h4, h5⟩
    rw [hbb]
    exact ⟨hWfalse _ _ _ h4, fun hbb2 => hWfalse _ _ _ (h5 hbb2)⟩

theorem damage_wall_WInv (s : ModelState) (y x : Int) (d : Nat)
    (hI : WInv s) (hw : hasWall s y x d = true)
    (hdmg : (dictGet s.wallDamage (y, x, d)).getD 0 < 2) :
    WInv (damage_wall s y x d).1 := by
  obtain ⟨hwf, hinv⟩ := hI
  have hd4 : d < 4 := hasWall_dir_lt s y x d hwf hw
  have hood : oppositeDirection (oppositeDirection d) = d := opposite_opposite d hd4
  have hone : (dictGet s.wallDamage (y, x, d)).getD 0 = 0 ∨
      (dictGet s.wallDamage (y, x, d)).getD 0 = 1 := by omega
  have hkodne : ∀ yy xx : Int, ((yy, xx, oppositeDirection d) : WallKey) ≠ (y, x, d) :=
    fun yy xx hh => oppositeDirection_ne d (congrArg (fun k : WallKey => k.2.2) hh)
  rcases hone with h0 | h1
  · rw [damage_wall_not_destroy s y x d h0]
    refine ⟨fun p => hwf p, ?_⟩
    intro y' x' d'
    by_cases hk : ((y', x', d') : WallKey) = ((y, x, d) : WallKey)
    · obtain ⟨e1, e2, e3⟩ : y' = y ∧ x' = x ∧ d' = d := by
        simpa [Prod.ext_iff] using hk
      subst e1
      subst e2
      subst e3
      refine ⟨?_, ?_, ?_⟩ <;> dsimp only <;> rw [dictGet_dictSet_self]
      · simp
      · intro _
        simp
      · intro habs
        simp at habs
    · exact WallInv_other_key s
        { s with wallDamage := dictSet s.wallDamage ((y, x, d) : WallKey) 1,
                 damageCounters := s.damageCounters + 1 }
        (fun p dd => Or.inl rfl) rfl rfl hinv y' x' d'
        (dictGet_dictSet_ne s.wallDamage _ _ 1 hk)
  · by_cases hb : inBoundsYX s (getAdjacentPosition x y d).2
        (getAdjacentPosition x y d).1 = true
    · rw [damage_wall_destroy_inb s y x d h1 hb]
      have hgW : ∀ (p : Int × Int) (dd : Nat),
          ((updCell (updCell s.grid (y, x) fun c => { c with walls := c.walls.set d 0 })
              ((getAdjacentPosition x y d).2, (getAdjacentPosition x y d).1)
              (fun c => { c with walls := c.walls.set (oppositeDirection d) 0 })) p).walls.getD dd 0 =
            (s.grid p).walls.getD dd 0 ∨
          ((updCell (updCell s.grid (y, x) fun c => { c with walls := c.walls.set d 0 })
              ((getAdjacentPosition x y d).2, (getAdjacentPosition x y d).1)
              (fun c => { c with walls := c.walls.set (oppositeDirection d) 0 })) p).walls.getD dd 0 = 0 := by
        intro p dd
        rw [updCell_apply]
        split
        · rename_i hh
          subst hh
          dsimp only
          rcases getD_set_zero_cases
              ((updCell s.grid (y, x) fun c => { c with walls := c.walls.set d 0 })
                ((getAdjacentPosition x y d).2, (getAdjacentPosition x y d).1)).walls
              (oppositeDirection d) dd with he | hz
          · rw [he, updCell_apply]
            split
            · rename_i hh2
              rw [hh2]
              dsimp only
              exact getD_set_zero_cases _ d dd
            · exact Or.inl rfl
          · exact Or.inr hz
        · rw [updCell_apply]
          split
          · rename_i hh2
            subst hh2
            dsimp only
            exact getD_set_zero_cases _ d dd
          · exact Or.inl rfl
      refine ⟨?_, ?_⟩
      · intro p
        dsimp only
        rw [updCell_walls_length_set, updCell_walls_length_set]
        exact hwf p
      · intro y' x' d'
        obtain ⟨hp2, hwa, hwb, hdk, hdm⟩ := damage_wall_destroy_parts s y x d h1 hb
        rw [damage_wall_destroy_inb s y x d h1 hb] at hp2 hwa hwb hdk hdm
        by_cases hk : ((y', x', d') : WallKey) = ((y, x, d) : WallKey)
        · obtain ⟨e1, e2, e3⟩ : y' = y ∧ x' = x ∧ d' = d := by
            simpa [Prod.ext_iff] using hk
          subst e1
          subst e2
          subst e3
          refine ⟨?_, ?_, ?_⟩
          · rw [hdk]
            simp
          · intro hww
            rw [hwa] at hww
            cases hww
          · intro _
            exact ⟨hwa, fun _ => hwb⟩
        · by_cases hk2 : ((y', x', d') : WallKey) =
              (((getAdjacentPosition x y d).2, (getAdjacentPosition x y d).1,
                oppositeDirection d) : WallKey)
          · obtain ⟨e1, e2, e3⟩ : y' = (getAdjacentPosition x y d).2 ∧
                x' = (getAdjacentPosition x y d).1 ∧ d' = oppositeDirection d := by
              simpa [Prod.ext_iff] using hk2
            subst e1
            subst e2
            subst e3
            refine ⟨?_, ?_, ?_⟩
            · rw [hdm]
              simp
            · intro hww
              rw [hwb] at hww
              cases hww
            · intro _
              refine ⟨hwb, fun _ => ?_⟩
              have hadj := adj_adj x y d hd4
              rw [Prod.ext_iff] at hadj
              rw [hadj.1, hadj.2, hood]
              exact hwa
          · refine WallInv_other_key s
              { s with
                  grid := updCell
                    (updCell s.grid (y, x) fun c => { c with walls := c.walls.set d 0 })
                    ((getAdjacentPosition x y d).2, (getAdjacentPosition x y d).1)
                    (fun c => { c with walls := c.walls.set (oppositeDirection d) 0 }),
                  wallDamage := dictSet (dictSet s.wallDamage ((y, x, d) : WallKey) 2)
                    (((getAdjacentPosition x y d).2, (getAdjacentPosition x y d).1,
                      oppositeDirection d) : WallKey) 2,
                  damageCounters := s.damageCounters + 1 }
              hgW rfl rfl hinv y' x' d' ?_
            dsimp only
            rw [dictGet_dictSet_ne _ _ _ _ hk2, dictGet_dictSet_ne _ _ _ _ hk]
    · have hbf : inBoundsYX s (getAdjacentPosition x y d).2
          (getAdjacentPosition x y d).1 = false := by
        cases hbv : inBoundsYX s (getAdjacentPosition x y d).2
            (getAdjacentPosition x y d).1
        · rfl
        · exact absurd hbv hb
      rw [damage_wall_destroy_oob s y x d h1 hbf]
      have hgW : ∀ (p : Int × Int) (dd : Nat),
          ((updCell s.grid (y, x) fun c => { c with walls := c.walls.set d 0 }) p).walls.getD dd 0 =
            (s.grid p).walls.getD dd 0 ∨
          ((updCell s.grid (y, x) fun c => { c with walls := c.walls.set d 0 }) p).walls.getD dd 0 = 0 := by
        intro p dd
        rw [updCell_apply]
        split
        · rename_i hh
          subst hh
          dsimp only
          exact getD_set_zero_cases _ d dd
        · exact Or.inl rfl
      refine ⟨?_, ?_⟩
      · intro p
        dsimp only
        rw [updCell_walls_length_set]
        exact hwf p
      · intro y' x' d'
        by_cases hk : ((y', x', d') : WallKey) = ((y, x, d) : WallKey)
        · obtain ⟨e1, e2, e3⟩ : y' = y ∧ x' = x ∧ d' = d := by
            simpa [Prod.ext_iff] using hk
          subst e1
          subst e2
          subst e3
          refine ⟨?_, ?_, ?_⟩
          · dsimp only
            rw [dictGet_dictSet_self]
            simp
          · intro hww
            unfold hasWall at hww
            dsimp only at hww
            rw [updCell_apply, if_pos rfl] at hww
            dsimp only at hww
            rw [getD_set_self_zero] at hww
            cases hww
          · intro _
            constructor
            · unfold hasWall
              dsimp only
              rw [updCell_apply, if_pos rfl]
              dsimp only
              rw [getD_set_self_zero]
              rfl
            · intro hbt
              have hbs : inBoundsYX s (getAdjacentPosition x' y' d').2
                  (getAdjacentPosition x' y' d').1 = true := hbt
              rw [hbf] at hbs
              cases hbs
        · refine WallInv_other_key s
            { s with
                grid := updCell s.grid (y, x) fun c => { c with walls := c.walls.set d 0 },
                wallDamage := dictSet s.wallDamage ((y, x, d) : WallKey) 2,
                damageCounters := s.damageCounters + 1 }
            hgW rfl rfl hinv y' x' d' ?_
          dsimp only
          rw [dictGet_dictSet_ne _ _ _ _ hk]

theorem shockwaveObstacles_WInv (s : ModelState) (px py : Int) (dir : Nat)
    (h : WInv s) : WInv (shockwaveObstacles s px py dir).1 := by
  unfold shockwaveObstacles
  dsimp only
  split
  · split
    · split
      · exact WInv_congr s _ rfl (fun p => rfl) rfl rfl h
      · exact h
    · exact h
  · split
    · split
      · exact h
      · rename_i hdoor hwall hnotdest
        have hdw := damage_wall_WInv s py px dir h hwall ((h.2 py px dir).2.1 hwall)
        split
        · exact hdw
        · exact hdw
    · exact h

theorem shockwaveRest_core_WInv (s1 : ModelState) (x y : Int) (h : WInv s1) :
    WInv (RayStep.state
      (if (s1.grid (y, x)).fire then RayStep.cont s1 x y
       else if (s1.grid (y, x)).smoke then
         RayStep.halt { s1 with
           grid := updCell s1.grid (y, x) fun c => { c with smoke := false, fire := true },
           fires := appendFire s1.fires (y, x) }
       else
         RayStep.halt { s1 with
           grid := updCell s1.grid (y, x) fun c => { c with fire := true },
           fires := appendFire s1.fires (y, x) })) := by
  split
  · exact h
  · split
    · dsimp only [RayStep.state]
      exact WInv_congr s1 _ rfl (fun p => updCell_walls_of _ _ _ _ fun c => rfl) rfl rfl h
    · dsimp only [RayStep.state]
      exact WInv_congr s1 _ rfl (fun p => updCell_walls_of _ _ _ _ fun c => rfl) rfl rfl h

theorem shockwaveRest_WInv (s : ModelState) (x y : Int) (h : WInv s) :
    WInv (shockwaveRest s x y).state := by
  unfold shockwaveRest
  split
  · exact h
  · dsimp only
    refine shockwaveRest_core_WInv _ x y ?_
    split
    · exact WInv_congr s _ rfl (fun p => updCell_walls_of _ _ _ _ fun c => rfl) rfl rfl h
    · exact h

theorem shockwaveStep_WInv (s : ModelState) (px py : Int) (dir : Nat)
    (h : WInv s) : WInv (shockwaveStep s px py dir).state := by
  unfold shockwaveStep
  dsimp only
  split
  · exact h
  · split
    · exact shockwaveObstacles_WInv s px py dir h
    · exact shockwaveRest_WInv _ _ _ (shockwaveObstacles_WInv s px py dir h)

theorem shockwaveLoop_WInv (fuel : Nat) (s : ModelState) (px py : Int)
    (dir : Nat) (h : WInv s) : WInv (shockwaveLoop fuel s px py dir) := by
  induction fuel generalizing s px py with
  | zero => exact h
  | succ n ih =>
    unfold shockwaveLoop
    cases hstep : shockwaveStep s px py dir with
    | halt s1 =>
      have hh := shockwaveStep_WInv s px py dir h
      rw [hstep] at hh
      exact hh
    | cont s1 x y =>
      have hh := shockwaveStep_WInv s px py dir h
      rw [hstep] at hh
      exact ih s1 x y hh

theorem shockwave_WInv (s : ModelState) (row col : Int) (dir : Nat)
    (h : WInv s) : WInv (shockwave s row col dir) := by
  unfold shockwave
  exact shockwaveLoop_WInv _ s col row dir h

theorem explosionEnter_core_WInv (s1 : ModelState) (x y : Int) (dir : Nat)
    (h : WInv s1) :
    WInv (RayStep.state
      (if (s1.grid (y, x)).smoke then
        RayStep.cont { s1 with
          grid := updCell s1.grid (y, x) fun c => { c with smoke := false, fire := true },
          fires := appendFire s1.fires (y, x) } x y
      else if !(s1.grid (y, x)).fire then
        RayStep.cont { s1 with
          grid := updCell s1.grid (y, x) fun c => { c with fire := true },
          fires := appendFire s1.fires (y, x) } x y
      else RayStep.halt (shockwave s1 y x dir))) := by
  split
  · dsimp only [RayStep.state]
    exact WInv_congr s1 _ rfl (fun p => updCell_walls_of _ _ _ _ fun c => rfl) rfl rfl h
  · split
    · dsimp only [RayStep.state]
      exact WInv_congr s1 _ rfl (fun p => updCell_walls_of _ _ _ _ fun c => rfl) rfl rfl h
    · dsimp only [RayStep.state]
      exact shockwave_WInv s1 y x dir h

theorem explosionEnter_WInv (s : ModelState) (x y : Int) (dir : Nat)
    (h : WInv s) : WInv (explosionEnter s x y dir).state := by
  unfold explosionEnter
  dsimp only
  refine explosionEnter_core_WInv _ x y dir ?_
  split
  · exact WInv_congr s _ rfl (fun p => updCell_walls_of _ _ _ _ fun c => rfl) rfl rfl h
  · exact h

theorem explosionStep_WInv (s : ModelState) (x y : Int) (dir : Nat)
    (h : WInv s) : WInv (explosionStep s x y dir).state := by
  unfold explosionStep
  dsimp only
  split
  · exact h
  · split
    · exact h
    · have h1 : WInv (if (y, x, dir) ∈ computeDoorPositions s.doors then
          if dictHas s.doorStates (y, x, dir) then
            { s with doorStates := dictDel s.doorStates (y, x, dir) }
          else s
        else s) := by
        split
        · split
          · exact WInv_congr s _ rfl (fun p => rfl) rfl rfl h
          · exact h
        · exact h
      revert h1
      generalize (if (y, x, dir) ∈ computeDoorPositions s.doors then
          if dictHas s.doorStates (y, x, dir) then
            { s with doorStates := dictDel s.doorStates (y, x, dir) }
          else s
        else s) = s1
      intro h1
      split
      · rename_i hcond
        rw [Bool.and_eq_true] at hcond
        obtain ⟨hwall, _⟩ := hcond
        have hdw := damage_wall_WInv s1 y x dir h1 hwall ((h1.2 y x dir).2.1 hwall)
        split
        · exact hdw
        · exact explosionEnter_WInv _ _ _ dir hdw
      · exact explosionEnter_WInv s1 _ _ dir h1

theorem explosionLoop_WInv (fuel : Nat) (s : ModelState) (x y : Int)
    (dir : Nat) (h : WInv s) : WInv (explosionLoop fuel s x y dir) := by
  induction fuel generalizing s x y with
  | zero => exact h
  | succ n ih =>
    unfold explosionLoop
    cases hstep : explosionStep s x y dir with
    | halt s1 =>
      have hh := explosionStep_WInv s x y dir h
      rw [hstep] at hh
      exact hh
    | cont s1 x1 y1 =>
      have hh := explosionStep_WInv s x y dir h
      rw [hstep] at hh
      exact ih s1 x1 y1 hh

theorem destroyAdjacentDoors_WInv (s : ModelState) (row col : Int)
    (h : WInv s) : WInv (destroyAdjacentDoors s row col) := by
  unfold destroyAdjacentDoors
  have hstep : ∀ (acc : ModelState) (dc : Nat), WInv acc →
      WInv (if (row, col, (dc : Nat)) ∈ computeDoorPositions acc.doors then
        if dictHas acc.doorStates (row, col, dc) then
          { acc with doorStates := dictDel acc.doorStates (row, col, dc) }
        else acc
      else acc) := by
    intro acc dc hacc
    split
    · split
      · exact WInv_congr acc _ rfl (fun p => rfl) rfl rfl hacc
      · exact hacc
    · exact hacc
  have hfold : ∀ (l : List Nat) (s0 : ModelState), WInv s0 →
      WInv (l.foldl (fun acc dc =>
        if (row, col, (dc : Nat)) ∈ computeDoorPositions acc.doors then
          if dictHas acc.doorStates (row, col, dc) then
            { acc with doorStates := dictDel acc.doorStates (row, col, dc) }
          else acc
        else acc) s0) := by
    intro l
    induction l with
    | nil => intro s0 h0; exact h0
    | cons a t ih => intro s0 h0; exact ih _ (hstep s0 a h0)
  exact hfold (List.range 4) s h

theorem propagate_explosion_WInv (s : ModelState) (row col : Int) (dir : Nat)
    (h : WInv s) : WInv (propagate_explosion s row col dir) := by
  unfold propagate_explosion
  dsimp only
  refine explosionLoop_WInv _ _ col row dir ?_
  split
  · exact destroyAdjacentDoors_WInv s row col h
  · exact h

theorem cut_wall_WInv (s : ModelState) (ai dir : Nat) (h : WInv s) :
    WInv (cut_wall s ai dir).1 := by
  unfold cut_wall
  split
  · exact h
  · rename_i ag hag
    split
    · exact h
    · dsimp only
      split
      · rename_i hwall
        split
        · exact h
        · have hdw := damage_wall_WInv s _ _ dir h hwall
            ((h.2 ag.pos.2 ag.pos.1 dir).2.1 hwall)
          exact WInv_congr _ _ rfl (fun p => rfl) rfl rfl hdw
      · exact h

theorem ReachWall_WInv (s : ModelState) (h : ReachWall s) : WInv s := by
  induction h with
  | init s hwf hdam =>
    refine ⟨hwf, ?_⟩
    intro y x d
    rw [hdam]
    refine ⟨?_, ?_, ?_⟩
    · simp [dictGet]
    · intro _
      simp [dictGet]
    · intro habs
      simp [dictGet] at habs
  | explosion s row col dir _ ih => exact propagate_explosion_WInv s row col dir ih
  | shock s row col dir _ ih => exact shockwave_WInv s row col dir ih
  | cut s ai dir _ ih => exact cut_wall_WInv s ai dir ih

/-- C4: in every state reachable from a fresh model by the wall-damaging
operations (explosion rays, shockwaves, firefighter wall cuts), every wall
segment's damage counter is at most 2, a standing wall's counter is below 2,
and a counter at exactly 2 means the wall bit is cleared on the origin cell's
direction and, for an on-board neighbour, on the neighbouring cell's opposite
direction as well. -/
theorem c4_wall_damage_invariant (s : ModelState) (h : ReachWall s) :
    WallInv s :=
  (ReachWall_WInv s h).2

theorem c4_wall_damage_witness :
    WallInv (cut_wall stC4 0 1).1 :=
  c4_wall_damage_invariant (cut_wall stC4 0 1).1
    (ReachWall.cut stC4 0 1 (ReachWall.init stC4
      (fun p => by
        unfold stC4 stBase
        dsimp only
        split
        · rfl
        · split
          · rfl
          · rfl)
      rfl))

theorem MutexFS_congr (s t : ModelState)
    (hf : ∀ p, (t.grid p).fire = (s.grid p).fire)
    (hs : ∀ p, (t.grid p).smoke = (s.grid p).smoke)
    (h : MutexFS s) : MutexFS t := by
  intro p hp
  refine h p ⟨?_, ?_⟩
  · rw [← hf p]
    exact hp.1
  · rw [← hs p]
    exact hp.2

theorem updCell_fire_of (g : Int × Int → Cell) (q : Int × Int) (f : Cell → Cell)
    (p : Int × Int) (hf : ∀ c, (f c).fire = c.fire) :
    ((updCell g q f) p).fire = (g p).fire := by
  rw [updCell_apply]
  split
  · rename_i hh
    subst hh
    exact hf _
  · rfl

theorem updCell_smoke_of (g : Int × Int → Cell) (q : Int × Int) (f : Cell → Cell)
    (p : Int × Int) (hf : ∀ c, (f c).smoke = c.smoke) :
    ((updCell g q f) p).smoke = (g p).smoke := by
  rw [updCell_apply]
  split
  · rename_i hh
    subst hh
    exact hf _
  · rfl

theorem updCell_mutex (g : Int × Int → Cell) (q : Int × Int) (f : Cell → Cell)
    (hall : ∀ p, ¬((g p).fire = true ∧ (g p).smoke = true))
    (hq : ¬((f (g q)).fire = true ∧ (f (g q)).smoke = true)) :
    ∀ p, ¬(((updCell g q f) p).fire = true ∧ ((updCell g q f) p).smoke = true) := by
  intro p
  rw [updCell_apply]
  split
  · rename_i hh
    subst hh
    exact hq
  · exact hall p

theorem damage_wall_mutex (s : ModelState) (y x : Int) (d : Nat)
    (h : MutexFS s) : MutexFS (damage_wall s y x d).1 :=
  MutexFS_congr s _ (damage_wall_grid_fire s y x d) (damage_wall_grid_smoke s y x d) h

theorem shockwaveObstacles_mutex (s : ModelState) (px py : Int) (dir : Nat)
    (h : MutexFS s) : MutexFS (shockwaveObstacles s px py dir).1 := by
  unfold shockwaveObstacles
  dsimp only
  split
  · split
    · split
      · exact MutexFS_congr s _ (fun p => rfl) (fun p => rfl) h
      · exact h
    · exact h
  · split
    · split
      · exact h
      · have hdw := damage_wall_mutex s py px dir h
        split
        · exact hdw
        · exact hdw
    · exact h

theorem shockwaveRest_core_mutex (s1 : ModelState) (x y : Int) (h : MutexFS s1) :
    MutexFS (RayStep.state
      (if (s1.grid (y, x)).fire then RayStep.cont s1 x y
       else if (s1.grid (y, x)).smoke then
         RayStep.halt { s1 with
           grid := updCell s1.grid (y, x) fun c => { c with smoke := false, fire := true },
           fires := appendFire s1.fires (y, x) }
       else
         RayStep.halt { s1 with
           grid := updCell s1.grid (y, x) fun c => { c with fire := true },
           fires := appendFire s1.fires (y, x) })) := by
  split
  · exact h
  · split
    · dsimp only [RayStep.state]
      intro p
      refine updCell_mutex s1.grid (y, x) _ h ?_ p
      intro hc
      exact Bool.false_ne_true hc.2
    · rename_i hfire hsmoke
      dsimp only [RayStep.state]
      intro p
      refine updCell_mutex s1.grid (y, x) _ h ?_ p
      intro hc
      exact hsmoke hc.2

theorem MutexFS_setPoi (s : ModelState) (q : Int × Int) (po : Option String)
    (h : MutexFS s) :
    ∀ p, ¬(((updCell s.grid q fun c => { c with poi := po }) p).fire = true ∧
      ((updCell s.grid q fun c => { c with poi := po }) p).smoke = true) := by
  intro p
  refine updCell_mutex s.grid q _ h ?_ p
  intro hc
  exact h q ⟨hc.1, hc.2⟩

theorem shockwaveRest_mutex (s : ModelState) (x y : Int) (h : MutexFS s) :
    MutexFS (shockwaveRest s x y).state := by
  unfold shockwaveRest
  split
  · exact h
  · dsimp only
    refine shockwaveRest_core_mutex _ x y ?_
    split
    · exact MutexFS_setPoi s (y, x) none h
    · exact h

theorem shockwaveStep_mutex (s : ModelState) (px py : Int) (dir : Nat)
    (h : MutexFS s) : MutexFS (shockwaveStep s px py dir).state := by
  unfold shockwaveStep
  dsimp only
  split
  · exact h
  · split
    · exact shockwaveObstacles_mutex s px py dir h
    · exact shockwaveRest_mutex _ _ _ (shockwaveObstacles_mutex s px py dir h)

theorem shockwaveLoop_mutex (fuel : Nat) (s : ModelState) (px py : Int)
    (dir : Nat) (h : MutexFS s) : MutexFS (shockwaveLoop fuel s px py dir) := by
  induction fuel generalizing s px py with
  | zero => exact h
  | succ n ih =>
    unfold shockwaveLoop
    cases hstep : shockwaveStep s px py dir with
    | halt s1 =>
      have hh := shockwaveStep_mutex s px py dir h
      rw [hstep] at hh
      exact hh
    | cont s1 x y =>
      have hh := shockwaveStep_mutex s px py dir h
      rw [hstep] at hh
      exact ih s1 x y hh

theorem shockwave_mutex (s : ModelState) (row col : Int) (dir : Nat)
    (h : MutexFS s) : MutexFS (shockwave s row col dir) := by
  unfold shockwave
  exact shockwaveLoop_mutex _ s col row dir h

theorem explosionEnter_core_mutex (s1 : ModelState) (x y : Int) (dir : Nat)
    (h : MutexFS s1) :
    MutexFS (RayStep.state
      (if (s1.grid (y, x)).smoke then
        RayStep.cont { s1 with
          grid := updCell s1.grid (y, x) fun c => { c with smoke := false, fire := true },
          fires := appendFire s1.fires (y, x) } x y
      else if !(s1.grid (y, x)).fire then
        RayStep.cont { s1 with
          grid := updCell s1.grid (y, x) fun c => { c with fire := true },
          fires := appendFire s1.fires (y, x) } x y
      else RayStep.halt (shockwave s1 y x dir))) := by
  split
  · rename_i hsmoke
    dsimp only [RayStep.state]
    intro p
    refine updCell_mutex s1.grid (y, x) _ h ?_ p
    intro hc
    exact Bool.false_ne_true hc.2
  · rename_i hsmoke
    split
    · dsimp only [RayStep.state]
      intro p
      refine updCell_mutex s1.grid (y, x) _ h ?_ p
      intro hc
      exact hsmoke hc.2
    · dsimp only [RayStep.state]
      exact shockwave_mutex s1 y x dir h

theorem explosionEnter_mutex (s : ModelState) (x y : Int) (dir : Nat)
    (h : MutexFS s) : MutexFS (explosionEnter s x y dir).state := by
  unfold explosionEnter
  dsimp only
  refine explosionEnter_core_mutex _ x y dir ?_
  split
  · exact MutexFS_setPoi s (y, x) none h
  · exact h

theorem explosionStep_mutex (s : ModelState) (x y : Int) (dir : Nat)
    (h : MutexFS s) : MutexFS (explosionStep s x y dir).state := by
  unfold explosionStep
  dsimp only
  split
  · exact h
  · split
    · exact h
    · have h1 : MutexFS (if (y, x, dir) ∈ computeDoorPositions s.doors then
          if dictHas s.doorStates (y, x, dir) then
            { s with doorStates := dictDel s.doorStates (y, x, dir) }
          else s
        else s) := by
        split
        · split
          · exact MutexFS_congr s _ (fun p => rfl) (fun p => rfl) h
          · exact h
        · exact h
      revert h1
      generalize (if (y, x, dir) ∈ computeDoorPositions s.doors then
          if dictHas s.doorStates (y, x, dir) then
            { s with doorStates := dictDel s.doorStates (y, x, dir) }
          else s
        else s) = s1
      intro h1
      split
      · have hdw := damage_wall_mutex s1 y x dir h1
        split
        · exact hdw
        · exact explosionEnter_mutex _ _ _ dir hdw
      · exact explosionEnter_mutex s1 _ _ dir h1

theorem explosionLoop_mutex (fuel : Nat) (s : ModelState) (x y : Int)
    (dir : Nat) (h : MutexFS s) : MutexFS (explosionLoop fuel s x y dir) := by
  induction fuel generalizing s x y with
  | zero => exact h
  | succ n ih =>
    unfold explosionLoop
    cases hstep : explosionStep s x y dir with
    | halt s1 =>
      have hh := explosionStep_mutex s x y dir h
      rw [hstep] at hh
      exact hh
    | cont s1 x1 y1 =>
      have hh := explosionStep_mutex s x y dir h
      rw [hstep] at hh
      exact ih s1 x1 y1 hh

theorem destroyAdjacentDoors_mutex (s : ModelState) (row col : Int)
    (h : MutexFS s) : MutexFS (destroyAdjacentDoors s row col) := by
  unfold destroyAdjacentDoors
  have hfold : ∀ (l : List Nat) (s0 : ModelState), MutexFS s0 →
      MutexFS (l.foldl (fun acc dc =>
        if (row, col, (dc : Nat)) ∈ computeDoorPositions acc.doors then
          if dictHas acc.doorStates (row, col, dc) then
            { acc with doorStates := dictDel acc.doorStates (row, col, dc) }
          else acc
        else acc) s0) := by
    have hstep : ∀ (acc : ModelState) (dc : Nat), MutexFS acc →
        MutexFS (if (row, col, (dc : Nat)) ∈ computeDoorPositions acc.doors then
          if dictHas acc.doorStates (row, col, dc) then
            { acc with doorStates := dictDel acc.doorStates (row, col, dc) }
          else acc
        else acc) := by
      intro acc dc hacc
      split
      · split
        · exact MutexFS_congr acc _ (fun p => rfl) (fun p => rfl) hacc
        · exact hacc
      · exact hacc
    intro l
    induction l with
    | nil => intro s0 h0; exact h0
    | cons a t ih =>
      intro s0 h0
      exact ih _ (hstep s0 a h0)
  exact hfold (List.range 4) s h

theorem propagate_explosion_mutex (s : ModelState) (row col : Int) (dir : Nat)
    (h : MutexFS s) : MutexFS (propagate_explosion s row col dir) := by
  unfold propagate_explosion
  dsimp only
  refine explosionLoop_mutex _ _ col row dir ?_
  split
  · exact destroyAdjacentDoors_mutex s row col h
  · exact h

theorem igniteAt_mutex (s : ModelState) (rr rc : Int) (h : MutexFS s) :
    MutexFS (igniteAt s rr rc) := by
  unfold igniteAt
  dsimp only
  split
  · rename_i hcond
    rw [Bool.and_eq_true] at hcond
    obtain ⟨hf, _⟩ := hcond
    have hfire : (s.grid (rr, rc)).fire = false := by
      cases hfv : (s.grid (rr, rc)).fire
      · rfl
      · rw [hfv] at hf
        simp at hf
    intro p
    refine updCell_mutex s.grid (rr, rc) _ h ?_ p
    intro hc
    rw [hfire] at hc
    exact Bool.false_ne_true hc.1
  · split
    · have h1 : ∀ p, ¬(((updCell s.grid (rr, rc)
          fun c => { c with fire := true, smoke := false }) p).fire = true ∧
          ((updCell s.grid (rr, rc)
          fun c => { c with fire := true, smoke := false }) p).smoke = true) := by
        intro p
        refine updCell_mutex s.grid (rr, rc) _ h ?_ p
        intro hc
        exact Bool.false_ne_true hc.2
      split
      · intro p
        refine updCell_mutex _ (rr, rc) _ h1 ?_ p
        intro hc
        exact h1 (rr, rc) ⟨hc.1, hc.2⟩
      · exact h1
    · have hfold : ∀ (l : List Nat) (s0 : ModelState), MutexFS s0 →
          MutexFS (l.foldl (fun acc d => propagate_explosion acc rr rc d) s0) := by
        intro l
        induction l with
        | nil => intro s0 h0; exact h0
        | cons a t ih =>
          intro s0 h0
          exact ih _ (propagate_explosion_mutex s0 rr rc a h0)
      exact hfold (List.range 4) s h

theorem flashover_mutex (s : ModelState) (h : MutexFS s) :
    MutexFS (flashover s) := by
  unfold flashover
  intro p hp
  obtain ⟨hpf, hps⟩ := hp
  rw [applyNewSmokes_fire, applyNewFires_fire] at hpf
  rw [applyNewSmokes_smoke, applyNewFires_smoke] at hps
  rw [Bool.or_eq_true] at hps
  rcases hps with hA | hnewsm
  · rw [Bool.and_eq_true] at hA
    obtain ⟨hsm, hnf⟩ := hA
    have hnotnf : p ∉ newFires s := by
      intro hmem
      rw [Bool.not_eq_true', decide_eq_false_iff_not] at hnf
      exact hnf hmem
    have hfire : (s.grid p).fire = true := by
      rw [Bool.or_eq_true] at hpf
      rcases hpf with hh | hh
      · exact hh
      · rw [decide_eq_true_iff] at hh
        exact absurd hh hnotnf
    exact h p ⟨hfire, hsm⟩
  · rw [decide_eq_true_iff] at hnewsm
    obtain ⟨hmem, hnotnf⟩ := hnewsm
    have hprops := mem_newSmokes_props s p hmem
    have hfire : (s.grid p).fire = true := by
      rw [Bool.or_eq_true] at hpf
      rcases hpf with hh | hh
      · exact hh
      · rw [decide_eq_true_iff] at hh
        exact absurd hh hnotnf
    rw [hprops.2] at hfire
    exact Bool.false_ne_true hfire

theorem advance_fire_mutex (s : ModelState) (r : Rng) (h : MutexFS s) :
    MutexFS (advance_fire s r).1 := by
  unfold advance_fire
  exact flashover_mutex _ (igniteAt_mutex s _ _ h)

theorem extinguish_fire_mutex (s : ModelState) (ai : Nat) (cy cx : Int)
    (mode : String) (h : MutexFS s) : MutexFS (extinguish_fire s ai cy cx mode).1 := by
  unfold extinguish_fire
  split
  · exact h
  · dsimp only
    split
    · split
      · intro p
        refine updCell_mutex s.grid (cy, cx) _ h ?_ p
        intro hc
        exact Bool.false_ne_true hc.1
      · exact h
    · split
      · split
        · intro p
          refine updCell_mutex s.grid (cy, cx) _ h ?_ p
          intro hc
          exact Bool.false_ne_true hc.1
        · exact h
      · split
        · split
          · intro p
            refine updCell_mutex s.grid (cy, cx) _ h ?_ p
            intro hc
            exact Bool.false_ne_true hc.2
          · exact h
        · exact h

theorem pickupAux_mutex (row col : Int) (poiType : String) (idx : List Nat)
    (s : ModelState) (h : MutexFS s) :
    MutexFS (pickupAux s row col poiType idx) := by
  induction idx with
  | nil => exact h
  | cons i rest ih =>
    unfold pickupAux
    split
    · split
      · exact MutexFS_setPoi s (row, col) none h
      · exact ih
    · exact ih

theorem tryPlacePoi_mutex (poiType : String) (l : List (Int × Int)) :
    ∀ s : ModelState, MutexFS s → MutexFS (tryPlacePoi s poiType l).1 := by
  induction l with
  | nil => intro s h; exact h
  | cons rc rest ih =>
    intro s h
    unfold tryPlacePoi
    dsimp only
    split
    · exact ih s h
    · split
      · exact ih s h
      · have h1 : MutexFS (if (s.grid (rc.1, rc.2)).fire then
            { s with grid := updCell s.grid (rc.1, rc.2) fun c => { c with fire := false },
                     fires := if (rc.1, rc.2) ∈ s.fires then s.fires.erase (rc.1, rc.2)
                       else s.fires }
          else s) := by
          split
          · intro p
            refine updCell_mutex s.grid (rc.1, rc.2) _ h ?_ p
            intro hc
            exact Bool.false_ne_true hc.1
          · exact h
        revert h1
        generalize (if (s.grid (rc.1, rc.2)).fire then
            { s with grid := updCell s.grid (rc.1, rc.2) fun c => { c with fire := false },
                     fires := if (rc.1, rc.2) ∈ s.fires then s.fires.erase (rc.1, rc.2)
                       else s.fires }
          else s) = s1
        intro h1
        have h2 : MutexFS (if (s1.grid (rc.1, rc.2)).smoke then
            { s1 with grid := updCell s1.grid (rc.1, rc.2) fun c => { c with smoke := false } }
          else s1) := by
          split
          · intro p
            refine updCell_mutex s1.grid (rc.1, rc.2) _ h1 ?_ p
            intro hc
            exact Bool.false_ne_true hc.2
          · exact h1
        revert h2
        generalize (if (s1.grid (rc.1, rc.2)).smoke then
            { s1 with grid := updCell s1.grid (rc.1, rc.2) fun c => { c with smoke := false } }
          else s1) = s2
        intro h2
        have h3 : MutexFS { s2 with
            grid := updCell s2.grid (rc.1, rc.2) fun c => { c with poi := some poiType },
            pois := s2.pois ++ [(rc.1, rc.2, poiType)] } :=
          MutexFS_setPoi s2 (rc.1, rc.2) (some poiType) h2
        split
        · exact pickupAux_mutex rc.1 rc.2 poiType _ _ h3
        · exact h3

theorem replenishOnce_mutex (s : ModelState) (r : Rng) (h : MutexFS s) :
    MutexFS (replenishOnce s r).1 := by
  unfold replenishOnce
  split
  · exact h
  · rename_i poiType restDeck hdeck
    dsimp only
    have h0 : MutexFS { s with mazoPois := restDeck } := fun p => h p
    split
    · exact h0
    · split
      · exact tryPlacePoi_mutex poiType _ _ h0
      · exact fun p => tryPlacePoi_mutex poiType _ _ h0 p

theorem replenishLoop_mutex (n : Nat) (s : ModelState) (r : Rng)
    (h : MutexFS s) : MutexFS (replenishLoop n s r).1 := by
  induction n generalizing s r with
  | zero => exact h
  | succ m ih =>
    unfold replenishLoop
    split
    · exact h
    · exact ih _ _ (replenishOnce_mutex s r h)

theorem replenish_pois_mutex (s : ModelState) (r : Rng) (h : MutexFS s) :
    MutexFS (replenish_pois s r).1 := by
  unfold replenish_pois
  split
  · exact h
  · dsimp only
    refine replenishLoop_mutex _ _ _ ?_
    unfold initDeckIfNeeded
    split
    · exact fun p => h p
    · exact h

/-- C3: every state reachable from a freshly parsed scenario (no smoke
anywhere) by the public fire/smoke operations — the ignition roll with its
explosion and flashover passes, standalone explosion rays, shockwaves, the
three extinguish modes, and POI replenishment — never holds fire and smoke
on the same cell at the same time. -/
theorem c3_fire_smoke_mutex (s : ModelState) (h : ReachFS s) : MutexFS s := by
  induction h with
  | init s hns =>
    intro p hp
    rw [hns p] at hp
    exact Bool.false_ne_true hp.2
  | ignite s r _ ih => exact advance_fire_mutex s r ih
  | explosion s row col dir _ ih => exact propagate_explosion_mutex s row col dir ih
  | shock s row col dir _ ih => exact shockwave_mutex s row col dir ih
  | ext s ai cy cx mode _ ih => exact extinguish_fire_mutex s ai cy cx mode ih
  | repl s r _ ih => exact replenish_pois_mutex s r ih

theorem c3_fire_smoke_witness :
    MutexFS (advance_fire stC3 [0, 0]).1 :=
  c3_fire_smoke_mutex (advance_fire stC3 [0, 0]).1
    (ReachFS.ignite stC3 [0, 0] (ReachFS.init stC3
      (fun p => by
        unfold stC3 stBase
        dsimp only
        split
        · rfl
        · rfl)))

end Bombers
